import Mathlib

/-! LoRaWAN confirmed-uplink examples: a shallow embedding.

The definitions below embed the policy code of

* `examples/freertos_otaa/main.c` (`prvAppTask`, the FreeRTOS application loop), and
* `examples/hello_otaa_advanced/main.c` (`main`, the cooperative loop).

The radio/MAC session, the clock and the console are external collaborators.
Every value the code obtains from them is an input of the model (an "answer"),
every call the code makes on them is recorded as an event.  `uint32_t` values
are natural numbers reduced modulo `2 ^ 32`; `int` values are integers.
-/

namespace LoRaWAN

/-! ## Machine integers -/

/-- Number of values of a `uint32_t`. -/
def U32 : Nat := 2 ^ 32

/-- Unsigned 32-bit increment, `x++` on a `uint32_t`. -/
def u32inc (x : Nat) : Nat := (x + 1) % U32

/-- Unsigned 32-bit addition, `x += y` on a `uint32_t`. -/
def u32add (x y : Nat) : Nat := (x + y) % U32

/-- Unsigned 32-bit subtraction, `a - b` on two `uint32_t`. -/
def u32sub (a b : Nat) : Nat := (a % U32 + U32 - b % U32) % U32

/-! ## `prvAppTask` (examples/freertos_otaa/main.c) -/

/-- The four outcomes of a confirmed-uplink cycle; each one is a branch of the
`if (result == 0) ... else if (result == -2) ... else if (result == -3) ... else`
chain of `prvAppTask`. -/
inductive AckOutcome where
  | Acknowledged
  | NotAcknowledged
  | SendNotStarted
  | SendTimedOut
  deriving DecidableEq, Repr

/-- The counters of `prvAppTask`, all `uint32_t`. -/
structure AppCounters where
  message_count : Nat
  confirmed_attempts : Nat
  confirmed_acks : Nat
  deriving DecidableEq, Repr

/-- What the session returns to `prvAppTask` during one loop iteration. -/
structure SessionAnswers where
  /-- Return value of `lorawan_send_confirmed_wait`. -/
  result : Int
  /-- Return value of `lorawan_last_ack_received`. -/
  ack : Int
  /-- Return value of the first `lorawan_receive`. -/
  immediate_length : Int
  immediate_port : Nat
  /-- Return value of `lorawan_get_devaddr` and the address it stores. -/
  devaddr_rc : Int
  devaddr : Nat
  /-- Return value of `lorawan_get_adr_enabled` and the flag it stores. -/
  adr_rc : Int
  adr_enabled : Int
  /-- Return value of the second `lorawan_receive`, with port and payload. -/
  receive_length : Int
  receive_port : Nat
  receive_buffer : List Nat

/-- What `prvAppTask` does on its collaborators during one loop iteration:
the send request and the console reports. -/
inductive AppEvent where
  /-- `lorawan_send_confirmed_wait("Confirmed<n>", len, 1, 90000)`. -/
  | sendConfirmedWait (n : Nat)
  /-- "IMMEDIATE: Received %d byte downlink on port %d". -/
  | immediateDownlink (length : Int) (port : Nat)
  /-- "ACK confirmed (MAC-only downlink, no app payload)." -/
  | ackMacOnly
  /-- "No immediate application payload received ...". -/
  | noImmediatePayload
  /-- The message printed by the branch of the result chain. -/
  | report (o : AckOutcome) (result : Int)
  /-- "DevAddr: %08X | ADR: %s". -/
  | diagnostics (devaddr : Nat) (adr : Bool)
  /-- "ACK Ratio: %lu/%lu (%.1f%%)". -/
  | ackRatio (acks attempts : Nat) (ratio : ℚ)
  /-- "Received %d byte downlink on port %d: " followed by the payload bytes. -/
  | downlink (length : Int) (port : Nat) (bytes : List Nat)
  /-- `vTaskDelay(pdMS_TO_TICKS(ms))`. -/
  | delay (ms : Nat)
  deriving DecidableEq

/-! ### Single-precision arithmetic

`float` is IEEE 754 binary32: a result is the exact value rounded to 24
significant bits, ties to even.  Values are kept as rationals.  With counters
below `2 ^ 32` every non-zero value of the ratio computation lies between
`2 ^ (-32)` and `2 ^ 39`, inside the normal range, so overflow and subnormal
numbers do not occur and are not modelled. -/

/-- Round to the nearest integer, ties to the even one. -/
def roundNE (x : ℚ) : ℤ :=
  let f := ⌊x⌋
  let r := x - f
  if r < 1 / 2 then f
  else if 1 / 2 < r then f + 1
  else if f % 2 = 0 then f else f + 1

/-- Round a rational to binary32: 24 significant bits, ties to even. -/
def f32round (x : ℚ) : ℚ :=
  if x = 0 then 0
  else
    let e : ℤ := Int.log 2 |x| - 23
    (roundNE (x / 2 ^ e) : ℚ) * 2 ^ e

/-- Conversion `(float)n` of a `uint32_t`. -/
def f32ofU32 (n : Nat) : ℚ := f32round (n : ℚ)

/-- Single-precision division. -/
def f32div (x y : ℚ) : ℚ := f32round (x / y)

/-- Single-precision multiplication. -/
def f32mul (x y : ℚ) : ℚ := f32round (x * y)

/-- The delivery ratio of `prvAppTask` (line 180):
`confirmed_attempts ? ((float)confirmed_acks / (float)confirmed_attempts) * 100.0f : 0.0f`. -/
def ackRatio (confirmed_acks confirmed_attempts : Nat) : ℚ :=
  if confirmed_attempts ≠ 0 then
    f32mul (f32div (f32ofU32 confirmed_acks) (f32ofU32 confirmed_attempts)) 100
  else 0

/-- The result chain of `prvAppTask` (lines 162-172): the new value of
`confirmed_acks` and the branch taken. -/
def resultChain (result ack : Int) (confirmed_acks : Nat) : Nat × AckOutcome :=
  if result = 0 then
    (u32add confirmed_acks (if ack ≠ 0 then 1 else 0), AckOutcome.Acknowledged)
  else if result = -2 then (confirmed_acks, AckOutcome.NotAcknowledged)
  else if result = -3 then (confirmed_acks, AckOutcome.SendTimedOut)
  else (confirmed_acks, AckOutcome.SendNotStarted)

/-- Result of one iteration of the loop of `prvAppTask`. -/
structure CycleResult where
  counters : AppCounters
  outcome : AckOutcome
  ratio : ℚ
  events : List AppEvent

/-- One iteration of the `for (;;)` loop of `prvAppTask` (lines 134-201). -/
def appCycle (a : SessionAnswers) (s : AppCounters) : CycleResult :=
  -- snprintf(message, ..., "Confirmed%lu", message_count++); the send
  let evSend := [AppEvent.sendConfirmedWait s.message_count]
  let message_count := u32inc s.message_count
  -- confirmed_attempts++
  let confirmed_attempts := u32inc s.confirmed_attempts
  -- first downlink poll
  let evImmediate :=
    if a.immediate_length > -1 then
      [AppEvent.immediateDownlink a.immediate_length a.immediate_port]
    else if a.ack ≠ 0 then [AppEvent.ackMacOnly]
    else [AppEvent.noImmediatePayload]
  -- result chain
  let chain := resultChain a.result a.ack s.confirmed_acks
  let confirmed_acks := chain.1
  let evReport := [AppEvent.report chain.2 a.result]
  -- diagnostics
  let evDiag :=
    if a.devaddr_rc = 0 ∧ a.adr_rc = 0 then
      [AppEvent.diagnostics a.devaddr (decide (a.adr_enabled ≠ 0))]
    else []
  -- ratio
  let ratio := ackRatio confirmed_acks confirmed_attempts
  let evRatio := [AppEvent.ackRatio confirmed_acks confirmed_attempts ratio]
  -- second downlink poll
  let evReceive :=
    if a.receive_length > -1 then
      [AppEvent.downlink a.receive_length a.receive_port
        (a.receive_buffer.take a.receive_length.toNat)]
    else []
  { counters := { message_count := message_count,
                  confirmed_attempts := confirmed_attempts,
                  confirmed_acks := confirmed_acks },
    outcome := chain.2,
    ratio := ratio,
    events := evSend ++ evImmediate ++ evReport ++ evDiag ++ evRatio ++ evReceive
                ++ [AppEvent.delay 60000] }

/-- Counters at entry of the loop: all zero (lines 131-133). -/
def appInit : AppCounters :=
  { message_count := 0, confirmed_attempts := 0, confirmed_acks := 0 }

/-- Counters after `n` iterations of the loop, the session answering
`answers i` in iteration `i`. -/
def appRun (answers : Nat → SessionAnswers) : Nat → AppCounters
  | 0 => appInit
  | n + 1 => (appCycle (answers n) (appRun answers n)).counters

/-- Counters and calls after `n` iterations of the loop of `prvAppTask`, the
session answering `answers i` in iteration `i`. -/
def appLoop (answers : Nat → SessionAnswers) : Nat → AppCounters × List AppEvent
  | 0 => (appInit, [])
  | n + 1 =>
    let before := appLoop answers n
    let r := appCycle (answers n) before.1
    (r.counters, before.2 ++ r.events)

/-- What the session returns to `prvAppTask` before the loop (lines 104-116). -/
structure StartupAnswers where
  /-- Return value of `lorawan_init_otaa`. -/
  init_rc : Int
  /-- Return value of `lorawan_is_joined`. -/
  is_joined : Int
  /-- Return value of `lorawan_join_freertos(60000)`. -/
  join_rc : Int

/-- Console messages of `prvAppTask` before the loop. -/
inductive TaskMsg where
  | initializing
  | initFailed
  | initialized
  | joining
  | joinFailed
  | joinSuccessful
  | waitingPostJoin
  | sessionRestored
  deriving DecidableEq, Repr

/-- Calls of `prvAppTask`, in program order. -/
inductive TaskEvent where
  /-- `lorawan_debug(true)`. -/
  | debug
  /-- `lorawan_init_otaa(&sx1276_settings, LORAMAC_REGION_US915, &otaa_settings)`. -/
  | initOtaa
  /-- `lorawan_is_joined()`. -/
  | isJoined
  /-- `lorawan_join_freertos(timeout_ms)`. -/
  | joinFreertos (timeout_ms : Nat)
  /-- `printf` of a message. -/
  | print (m : TaskMsg)
  /-- `vTaskDelay(pdMS_TO_TICKS(ms))`. -/
  | delay (ms : Nat)
  /-- `vTaskDelete(NULL); return;`. -/
  | taskDelete
  /-- A call made inside the `for (;;)` loop. -/
  | loop (e : AppEvent)
  deriving DecidableEq

/-- Result of running `prvAppTask`. -/
structure TaskResult where
  /-- Whether the `for (;;)` loop was entered. -/
  entered : Bool
  /-- The counters; they are declared at the entry of the loop, so they keep
  their initial value when the task ends before. -/
  counters : AppCounters
  /-- All calls, in program order. -/
  events : List TaskEvent

/-- The task `prvAppTask` (lines 86-202), its `for (;;)` loop run for `n`
iterations. -/
def prvAppTask (st : StartupAnswers) (answers : Nat → SessionAnswers) (n : Nat) :
    TaskResult :=
  let head := [TaskEvent.debug, TaskEvent.print TaskMsg.initializing, TaskEvent.initOtaa]
  if st.init_rc < 0 then
    { entered := false, counters := appInit,
      events := head ++ [TaskEvent.print TaskMsg.initFailed, TaskEvent.taskDelete] }
  else
    let run := appLoop answers n
    -- if (!lorawan_is_joined())
    if st.is_joined = 0 then
      let join := [TaskEvent.print TaskMsg.initialized, TaskEvent.isJoined,
                   TaskEvent.print TaskMsg.joining, TaskEvent.joinFreertos 60000]
      if st.join_rc < 0 then
        { entered := false, counters := appInit,
          events := head ++ join
            ++ [TaskEvent.print TaskMsg.joinFailed, TaskEvent.taskDelete] }
      else
        { entered := true, counters := run.1,
          events := head ++ join
            ++ [TaskEvent.print TaskMsg.joinSuccessful,
                TaskEvent.print TaskMsg.waitingPostJoin, TaskEvent.delay 15000]
            ++ run.2.map TaskEvent.loop }
    else
      { entered := true, counters := run.1,
        events := head
          ++ [TaskEvent.print TaskMsg.initialized, TaskEvent.isJoined,
              TaskEvent.print TaskMsg.sessionRestored]
          ++ run.2.map TaskEvent.loop }

/-- Whether a call of the task is a send request. -/
def TaskEvent.isSend : TaskEvent → Bool
  | TaskEvent.loop (AppEvent.sendConfirmedWait _) => true
  | _ => false

/-- Whether a call of the loop is a report of the result chain. -/
def AppEvent.isReport : AppEvent → Bool
  | AppEvent.report _ _ => true
  | _ => false

/-! ## `main` (examples/hello_otaa_advanced/main.c) -/

/-- The variables of `main` that live across iterations of `while (1)`,
all `uint32_t` (lines 107-109). -/
structure MainState where
  last_message_time : Nat
  last_link_check_time : Nat
  message_counter : Nat
  deriving DecidableEq, Repr

/-- Console messages of the main loop. -/
inductive MainMsg where
  | sending (counter : Nat) (datarate tx_power : Int)
  | success
  | stackBusyWaiting
  | dot
  | newline
  | acknowledged
  | notAcknowledged
  | allowingSettle
  | settling (seconds : Nat)
  | settleComplete
  | failedStackBusy
  | requestingLinkCheck
  | linkCheckSent
  | linkQuality (demod_margin nb_gateways : Nat)
  | noLinkCheckResponse
  | linkCheckFailed
  | received (length : Int) (port : Nat) (bytes : List Nat)
  deriving DecidableEq, Repr

/-- Calls of the main loop on its collaborators. -/
inductive MainEvent where
  /-- `lorawan_process()`. -/
  | process
  /-- `sleep_ms(ms)`. -/
  | sleep (ms : Nat)
  /-- `lorawan_reset_confirmed_status()`. -/
  | resetConfirmedStatus
  /-- `lorawan_send_confirmed(message, strlen(message), 2)`, the message
  carrying the value of `message_counter`. -/
  | sendConfirmed (counter : Nat)
  /-- `lorawan_get_last_confirmed_status()`. -/
  | statusPoll
  /-- `lorawan_request_link_check()`. -/
  | requestLinkCheck
  /-- `lorawan_get_link_check_result(&demod_margin, &nb_gateways)`. -/
  | getLinkCheckResult
  /-- `lorawan_receive(receive_buffer, sizeof(receive_buffer), &receive_port)`. -/
  | receive
  /-- `printf` of a message. -/
  | print (m : MainMsg)
  deriving DecidableEq, Repr

/-- What the clock and the session return during one iteration of `while (1)`. -/
structure IterAnswers where
  /-- `to_ms_since_boot(get_absolute_time())` at line 116. -/
  now : Nat
  /-- `lorawan_get_datarate()` and `lorawan_get_tx_power()`. -/
  datarate : Int
  tx_power : Int
  /-- Return value of the `(i+1)`-th `lorawan_send_confirmed` of the cycle. -/
  send : Nat → Int
  /-- Clock reading at line 157. -/
  ack_start : Nat
  /-- Clock reading at the `(i+1)`-th evaluation of the condition of line 160. -/
  clock : Nat → Nat
  /-- Return value of the `(i+1)`-th `lorawan_get_last_confirmed_status`. -/
  status : Nat → Bool
  /-- Return value of `lorawan_request_link_check`. -/
  link_request : Int
  /-- Return value of `lorawan_get_link_check_result` and what it stores. -/
  link_result : Int
  demod_margin : Nat
  nb_gateways : Nat
  /-- Return value of `lorawan_receive`, with port and payload. -/
  receive_length : Int
  receive_port : Nat
  receive_buffer : List Nat

/-- The retry loop `for (int retry = 0; retry < 200; retry++)` (lines 134-151),
entered with `remaining = 200 - retry` iterations left.  Returns `stack_ready`
and the calls made. -/
def retryLoop (send : Nat → Int) (counter : Nat) : Nat → Nat → Bool × List MainEvent
  | 0, _ => (false, [])
  | remaining + 1, retry =>
    if send retry ≥ 0 then
      (true, [MainEvent.process, MainEvent.sendConfirmed counter,
              MainEvent.print MainMsg.success])
    else
      let rest := retryLoop send counter remaining (retry + 1)
      (rest.1,
        [MainEvent.process, MainEvent.sendConfirmed counter]
          ++ (if retry = 0 then [MainEvent.print MainMsg.stackBusyWaiting] else [])
          ++ (if retry % 20 = 0 ∧ retry > 0 then [MainEvent.print MainMsg.dot] else [])
          ++ [MainEvent.sleep 100] ++ rest.2)

/-- Number of send requests among the calls. -/
def sendCount (evs : List MainEvent) : Nat :=
  evs.countP (fun e => match e with
    | MainEvent.sendConfirmed _ => true
    | _ => false)

/-- Number of polls of `lorawan_get_last_confirmed_status` among the calls. -/
def pollCount (evs : List MainEvent) : Nat :=
  evs.countP (fun e => match e with
    | MainEvent.statusPoll => true
    | _ => false)

/-- Number of link-check requests among the calls. -/
def linkRequestCount (evs : List MainEvent) : Nat :=
  evs.countP (fun e => match e with
    | MainEvent.requestLinkCheck => true
    | _ => false)

/-- The ack-wait loop `while (to_ms_since_boot(...) - ack_start < 30000)`
(lines 160-170), at its `(i+1)`-th evaluation of the condition.  Returns
`ack_received` and the calls made, or `none` when the loop has not ended after
`fuel` evaluations of the condition. -/
def ackWait (ack_start : Nat) (clock : Nat → Nat) (status : Nat → Bool) :
    Nat → Nat → Option (Bool × List MainEvent)
  | 0, _ => none
  | fuel + 1, i =>
    if u32sub (clock i) ack_start < 30000 then
      if status i then
        some (true, [MainEvent.process, MainEvent.statusPoll,
                     MainEvent.print MainMsg.acknowledged])
      else
        match ackWait ack_start clock status fuel (i + 1) with
        | none => none
        | some r =>
          some (r.1, [MainEvent.process, MainEvent.statusPoll, MainEvent.sleep 100] ++ r.2)
    else some (false, [])

/-- The settle loop `for (int settle = 0; settle < 300; settle++)`
(lines 179-187), entered with `remaining = 300 - settle` iterations left. -/
def settleLoop : Nat → Nat → List MainEvent
  | 0, _ => []
  | remaining + 1, settle =>
    [MainEvent.process, MainEvent.sleep 100]
      ++ (if settle % 50 = 0 ∧ settle > 0 then
            [MainEvent.print (MainMsg.settling (settle / 10))] else [])
      ++ settleLoop remaining (settle + 1)

/-- One uplink cycle: what happened in the body of
`if ((now - last_message_time) > 120000)` before `last_message_time = now`. -/
structure UplinkCycle where
  stack_ready : Bool
  ack_received : Bool
  /-- Calls made by the retry loop. -/
  retryEvents : List MainEvent
  /-- Calls made by the ack-wait loop. -/
  ackEvents : List MainEvent
  /-- Calls made by the settle loop. -/
  settleEvents : List MainEvent
  /-- All calls of the cycle, in program order. -/
  events : List MainEvent

/-- The body of the uplink branch (lines 120-192), `message_counter` already
incremented.  `none` when the ack-wait loop has not ended within `fuel`. -/
def uplinkCycle (fuel : Nat) (a : IterAnswers) (message_counter : Nat) :
    Option UplinkCycle :=
  let head := [MainEvent.resetConfirmedStatus,
               MainEvent.print (MainMsg.sending message_counter a.datarate a.tx_power)]
  let retry := retryLoop a.send message_counter 200 0
  if retry.1 then
    match ackWait (a.ack_start % U32) a.clock a.status fuel 0 with
    | none => none
    | some w =>
      if w.1 then
        let settle := settleLoop 300 0
        some { stack_ready := true, ack_received := true,
               retryEvents := retry.2, ackEvents := w.2, settleEvents := settle,
               events := head ++ retry.2 ++ [MainEvent.print MainMsg.newline] ++ w.2
                 ++ [MainEvent.print MainMsg.allowingSettle] ++ settle
                 ++ [MainEvent.print MainMsg.settleComplete] }
      else
        some { stack_ready := true, ack_received := false,
               retryEvents := retry.2, ackEvents := w.2, settleEvents := [],
               events := head ++ retry.2 ++ [MainEvent.print MainMsg.newline] ++ w.2
                 ++ [MainEvent.print MainMsg.notAcknowledged] }
  else
    some { stack_ready := false, ack_received := false,
           retryEvents := retry.2, ackEvents := [], settleEvents := [],
           events := head ++ retry.2 ++ [MainEvent.print MainMsg.failedStackBusy] }

/-- The poll loop `for (int i = 0; i < 30; i++)` of the link check (lines 204-207). -/
def linkPollLoop : Nat → List MainEvent
  | 0 => []
  | remaining + 1 => [MainEvent.process, MainEvent.sleep 100] ++ linkPollLoop remaining

/-- The body of the link-check branch (lines 199-218). -/
def linkCheck (a : IterAnswers) : List MainEvent :=
  [MainEvent.print MainMsg.requestingLinkCheck, MainEvent.requestLinkCheck]
    ++ (if a.link_request = 0 then
          [MainEvent.print MainMsg.linkCheckSent] ++ linkPollLoop 30
            ++ [MainEvent.getLinkCheckResult]
            ++ (if a.link_result = 0 then
                  [MainEvent.print (MainMsg.linkQuality a.demod_margin a.nb_gateways)]
                else [MainEvent.print MainMsg.noLinkCheckResponse])
        else [MainEvent.print MainMsg.linkCheckFailed])

/-- Result of one iteration of `while (1)`. -/
structure IterResult where
  state : MainState
  /-- The uplink cycle run in this iteration, if one started. -/
  cycle : Option UplinkCycle
  /-- Calls of the link-check branch, empty when it did not fire. -/
  linkEvents : List MainEvent
  /-- All calls of the iteration, in program order. -/
  events : List MainEvent

/-- One iteration of `while (1)` (lines 112-235).  `none` when the ack-wait
loop has not ended within `fuel` evaluations of its condition. -/
def mainIter (fuel : Nat) (a : IterAnswers) (s : MainState) : Option IterResult :=
  -- uint32_t now = to_ms_since_boot(get_absolute_time());
  let now := a.now % U32
  let link :=
    if u32sub now s.last_link_check_time > 300000 then (linkCheck a, now)
    else ([], s.last_link_check_time)
  let recv :=
    [MainEvent.receive]
      ++ (if a.receive_length > -1 then
            [MainEvent.print (MainMsg.received a.receive_length a.receive_port
              (a.receive_buffer.take a.receive_length.toNat))]
          else [])
      ++ [MainEvent.sleep 100]
  if u32sub now s.last_message_time > 120000 then
    -- ++message_counter
    let message_counter := u32inc s.message_counter
    match uplinkCycle fuel a message_counter with
    | none => none
    | some c =>
      -- last_message_time = now;
      some { state := { last_message_time := now,
                        last_link_check_time := link.2,
                        message_counter := message_counter },
             cycle := some c,
             linkEvents := link.1,
             events := [MainEvent.process] ++ c.events ++ link.1 ++ recv }
  else
    some { state := { last_message_time := s.last_message_time,
                      last_link_check_time := link.2,
                      message_counter := s.message_counter },
           cycle := none,
           linkEvents := link.1,
           events := [MainEvent.process] ++ link.1 ++ recv }

/-- State at entry of `while (1)`: all zero (lines 107-109). -/
def mainInit : MainState :=
  { last_message_time := 0, last_link_check_time := 0, message_counter := 0 }

/-- Successive iterations of `while (1)`, one per element of the list of
answers.  Returns the final state and the start times of the uplink cycles
that ran (the value of `now` of their iteration), in order. -/
def mainRun (fuel : Nat) : List IterAnswers → MainState → Option (MainState × List Nat)
  | [], s => some (s, [])
  | a :: rest, s =>
    match mainIter fuel a s with
    | none => none
    | some r =>
      match mainRun fuel rest r.state with
      | none => none
      | some out =>
        some (out.1, (if r.cycle.isSome then [a.now % U32] else []) ++ out.2)

/-! ## Variations of the answers -/

/-- The same session answers with other results of the two downlink polls. -/
def SessionAnswers.withPolls (a : SessionAnswers) (il : Int) (ip : Nat) (rl : Int)
    (rp : Nat) (rb : List Nat) : SessionAnswers :=
  { a with immediate_length := il, immediate_port := ip,
           receive_length := rl, receive_port := rp, receive_buffer := rb }

/-- The same iteration answers with another result of the downlink poll. -/
def IterAnswers.withReceive (m : IterAnswers) (rl : Int) (rp : Nat) (rb : List Nat) :
    IterAnswers :=
  { m with receive_length := rl, receive_port := rp, receive_buffer := rb }

/-- The same iteration answers with a link-check response available. -/
def IterAnswers.withLinkResponse (m : IterAnswers) (margin gateways : Nat) : IterAnswers :=
  { m with link_result := 0, demod_margin := margin, nb_gateways := gateways }

/-! ## Concrete inputs -/

/-- Session answers of an acknowledged cycle without downlink payload. -/
def answersAck : SessionAnswers :=
  { result := 0, ack := 1, immediate_length := -1, immediate_port := 0,
    devaddr_rc := 0, devaddr := 0, adr_rc := 0, adr_enabled := 0,
    receive_length := -1, receive_port := 0, receive_buffer := [] }

/-- Session answers of a cycle with the given result code and no ack. -/
def answersResult (result : Int) : SessionAnswers :=
  { result := result, ack := 0, immediate_length := -1, immediate_port := 0,
    devaddr_rc := 0, devaddr := 0, adr_rc := 0, adr_enabled := 0,
    receive_length := -1, receive_port := 0, receive_buffer := [] }

/-- One acknowledged cycle followed by cycles that are not acknowledged. -/
def answersAckThenNot (i : Nat) : SessionAnswers :=
  if i = 0 then answersAck else answersResult (-2)

/-- Send answers: rejected twice, then accepted. -/
def sendThird (i : Nat) : Int := if i < 2 then -1 else 0

/-- Iteration answers: every send request is rejected, no link-check response,
no downlink. -/
def iterBusy (now : Nat) : IterAnswers :=
  { now := now, datarate := 0, tx_power := 0, send := fun _ => -1,
    ack_start := now, clock := fun _ => now, status := fun _ => false,
    link_request := 0, link_result := -1, demod_margin := 0, nb_gateways := 0,
    receive_length := -1, receive_port := 0, receive_buffer := [] }

/-- Iteration answers: the third send request is accepted and the fourth
status poll reports the acknowledgment; the clock advances 100 ms per poll. -/
def iterAcked (now : Nat) : IterAnswers :=
  { now := now, datarate := 0, tx_power := 0, send := sendThird,
    ack_start := now + 200, clock := fun i => now + 200 + 100 * i,
    status := fun i => decide (i = 3),
    link_request := 0, link_result := -1, demod_margin := 0, nb_gateways := 0,
    receive_length := -1, receive_port := 0, receive_buffer := [] }

/-- State short before a wrap-around of the millisecond clock. -/
def stateBeforeWrap : MainState :=
  { last_message_time := 4294966296, last_link_check_time := 4294966296,
    message_counter := 5 }

/-- Startup answers: initialisation fails. -/
def startupInitFails : StartupAnswers := { init_rc := -1, is_joined := 0, join_rc := 0 }

/-- Startup answers: initialisation succeeds, the join times out. -/
def startupJoinFails : StartupAnswers := { init_rc := 0, is_joined := 0, join_rc := -1 }

/-- Startup answers: initialisation succeeds and the join succeeds. -/
def startupJoined : StartupAnswers := { init_rc := 0, is_joined := 0, join_rc := 0 }

/-! # Theorems -/

/-! ## Counters of `prvAppTask` -/

theorem appCycle_attempts (a : SessionAnswers) (s : AppCounters) :
    (appCycle a s).counters.confirmed_attempts = u32inc s.confirmed_attempts := rfl

theorem appCycle_acks (a : SessionAnswers) (s : AppCounters) :
    (appCycle a s).counters.confirmed_acks
      = (resultChain a.result a.ack s.confirmed_acks).1 := rfl

theorem appCycle_outcome (a : SessionAnswers) (s : AppCounters) :
    (appCycle a s).outcome = (resultChain a.result a.ack s.confirmed_acks).2 := rfl

theorem resultChain_le (result ack : Int) (acks : Nat) :
    (resultChain result ack acks).1 ≤ acks + 1 := by
  unfold resultChain u32add U32
  split_ifs <;> simp <;> omega

/-- After `n` iterations without wrap-around the attempts counter is `n` and
the ack counter is at most `n`. -/
theorem appRun_counters (answers : Nat → SessionAnswers) (n : Nat) (hn : n < U32) :
    (appRun answers n).confirmed_attempts = n ∧ (appRun answers n).confirmed_acks ≤ n := by
  induction n with
  | zero => exact ⟨rfl, Nat.le_refl _⟩
  | succ k ih =>
    obtain ⟨h1, h2⟩ := ih (by omega)
    constructor
    · show u32inc (appRun answers k).confirmed_attempts = k + 1
      rw [h1]
      exact Nat.mod_eq_of_lt hn
    · show (resultChain _ _ (appRun answers k).confirmed_acks).1 ≤ k + 1
      exact (resultChain_le _ _ _).trans (by omega)

theorem appRun_ackThenNot (n : Nat) :
    (appRun answersAckThenNot (n + 1)).confirmed_attempts = (n + 1) % U32
      ∧ (appRun answersAckThenNot (n + 1)).confirmed_acks = 1 := by
  induction n with
  | zero => decide
  | succ k ih =>
    obtain ⟨h1, h2⟩ := ih
    constructor
    · show u32inc (appRun answersAckThenNot (k + 1)).confirmed_attempts = _
      rw [h1]
      unfold u32inc U32
      omega
    · show (appCycle _ _).counters.confirmed_acks = 1
      rw [appCycle_acks, h2]
      simp [answersAckThenNot, answersResult, resultChain]

/-- C1 (as stated, refuted): after `2 ^ 32` iterations, the first acknowledged
and the others not, `confirmed_attempts` has wrapped to 0 while
`confirmed_acks` is 1. -/
theorem C1_counterexample :
    ¬ ((appRun answersAckThenNot (2 ^ 32)).confirmed_acks
        ≤ (appRun answersAckThenNot (2 ^ 32)).confirmed_attempts) := by
  have h := appRun_ackThenNot (2 ^ 32 - 1)
  have e : 2 ^ 32 - 1 + 1 = 2 ^ 32 := by norm_num
  rw [e] at h
  rw [h.1, h.2]
  simp [U32]

/-- C1 (amended): starting from zeroed counters, after any number `n < 2 ^ 32`
of iterations of the loop of `prvAppTask` and for every sequence of session
answers, `confirmed_acks ≤ confirmed_attempts`. -/
theorem C1_acks_le_attempts (answers : Nat → SessionAnswers) (n : Nat) (hn : n < 2 ^ 32) :
    (appRun answers n).confirmed_acks ≤ (appRun answers n).confirmed_attempts := by
  obtain ⟨h1, h2⟩ := appRun_counters answers n hn
  omega

/-- C1 (amended) at three iterations, the first acknowledged. -/
theorem C1_acks_le_attempts_witness :
    (appRun answersAckThenNot 3).confirmed_acks
      ≤ (appRun answersAckThenNot 3).confirmed_attempts :=
  C1_acks_le_attempts answersAckThenNot 3 (by norm_num)

/-- C2 (as stated, refuted): a cycle whose send failed to start (result -1,
outcome SendNotStarted) still changes `confirmed_attempts`, from 0 to 1. -/
theorem C2_counterexample :
    (appCycle (answersResult (-1)) appInit).outcome = AckOutcome.SendNotStarted
      ∧ appInit.confirmed_attempts = 0
      ∧ (appCycle (answersResult (-1)) appInit).counters.confirmed_attempts = 1 := by
  decide

/-- C2 (amended): in every cycle of `prvAppTask`, whatever the result code,
`confirmed_attempts` is incremented by one modulo `2 ^ 32`. -/
theorem C2_attempts_incremented (a : SessionAnswers) (s : AppCounters) :
    (appCycle a s).counters.confirmed_attempts = (s.confirmed_attempts + 1) % 2 ^ 32 := rfl

/-- C3 (as stated, refuted): a cycle with result 0 and ack flag 0 has outcome
Acknowledged and leaves `confirmed_acks` unchanged. -/
theorem C3_counterexample :
    (appCycle (answersResult 0) appInit).outcome = AckOutcome.Acknowledged
      ∧ (appCycle (answersResult 0) appInit).counters.confirmed_acks
          = appInit.confirmed_acks := by
  decide

/-- C3 (amended): in a cycle of `prvAppTask` with result 0 and a non-zero ack
flag, `confirmed_acks` is incremented by one modulo `2 ^ 32`; with result 0 and
ack flag 0, and for every other result, `confirmed_acks` is unchanged. -/
theorem C3_acks_update (a : SessionAnswers) (s : AppCounters)
    (hs : s.confirmed_acks < 2 ^ 32) :
    (a.result = 0 → a.ack ≠ 0 →
        (appCycle a s).counters.confirmed_acks = (s.confirmed_acks + 1) % 2 ^ 32)
      ∧ (a.result = 0 → a.ack = 0 →
        (appCycle a s).counters.confirmed_acks = s.confirmed_acks)
      ∧ (a.result ≠ 0 →
        (appCycle a s).counters.confirmed_acks = s.confirmed_acks) := by
  rw [appCycle_acks]
  unfold resultChain u32add U32
  refine ⟨fun h1 h2 => ?_, fun h1 h2 => ?_, fun h1 => ?_⟩
  · simp [h1, h2]
  · simp [h1, h2]
    omega
  · split_ifs <;> simp_all

/-- C3 (amended) at an acknowledged cycle from zeroed counters. -/
theorem C3_acks_update_witness :
    (appCycle answersAck appInit).counters.confirmed_acks = (0 + 1) % 2 ^ 32 :=
  (C3_acks_update answersAck appInit (by decide)).1 (by decide) (by decide)

/-! ## Single-precision rounding -/

theorem roundNE_of_abs_lt (y : ℚ) (k : ℤ) (h : |y - k| < 1 / 2) : roundNE y = k := by
  rw [abs_lt] at h
  obtain ⟨h1, h2⟩ := h
  unfold roundNE
  by_cases hk : (k : ℚ) ≤ y
  · have hf : ⌊y⌋ = k := by
      rw [Int.floor_eq_iff]
      constructor <;> linarith
    simp only [hf]
    rw [if_pos (by linarith)]
  · push_neg at hk
    have hf : ⌊y⌋ = k - 1 := by
      rw [Int.floor_eq_iff]
      push_cast
      constructor <;> linarith
    simp only [hf]
    push_cast
    rw [if_neg (by linarith), if_pos (by linarith)]
    ring

theorem roundNE_abs_sub_le (y : ℚ) : |(roundNE y : ℚ) - y| ≤ 1 / 2 := by
  have h1 := Int.floor_le y
  have h2 := Int.lt_floor_add_one y
  unfold roundNE
  simp only
  split_ifs <;> rw [abs_le] <;> constructor <;> push_cast <;> linarith

theorem f32round_eval (x : ℚ) (e k : ℤ) (hlo' : (2 : ℚ) ^ (e + 23) ≤ x)
    (hhi' : x < (2 : ℚ) ^ (e + 24)) (hk' : x / 2 ^ e - k < 1 / 2)
    (hk'' : -(1 / 2) < x / 2 ^ e - k) :
    f32round x = k * 2 ^ e := by
  have hx0 : 0 < x := lt_of_lt_of_le (by positivity) hlo'
  have hlo : (2 : ℚ) ^ (e + 23) ≤ |x| := by rwa [abs_of_pos hx0]
  have hhi : |x| < (2 : ℚ) ^ (e + 24) := by rwa [abs_of_pos hx0]
  have hk : |x / 2 ^ e - k| < 1 / 2 := abs_lt.mpr ⟨hk'', hk'⟩
  have hpos : 0 < |x| := lt_of_lt_of_le (by positivity) hlo
  have hx : x ≠ 0 := abs_pos.mp hpos
  have hlog : Int.log 2 |x| = e + 23 := by
    apply le_antisymm
    · have := (Int.lt_zpow_iff_log_lt (b := 2) (by norm_num) hpos).mp
        (by exact_mod_cast hhi : |x| < ((2 : ℕ) : ℚ) ^ (e + 24))
      omega
    · exact (Int.zpow_le_iff_le_log (b := 2) (by norm_num) hpos).mp
        (by exact_mod_cast hlo)
  unfold f32round
  rw [if_neg hx]
  simp only [hlog]
  have e1 : e + 23 - 23 = e := by ring
  rw [e1, roundNE_of_abs_lt _ k hk]

theorem f32round_abs_sub_le (x : ℚ) : |f32round x - x| ≤ 2 ^ (-24 : ℤ) * |x| := by
  unfold f32round
  split_ifs with hx
  · simp [hx]
  · have hpos : 0 < |x| := abs_pos.mpr hx
    simp only
    set e : ℤ := Int.log 2 |x| - 23 with he
    have hp : (0 : ℚ) < 2 ^ e := by positivity
    have h1 := roundNE_abs_sub_le (x / 2 ^ e)
    have h2 : (roundNE (x / 2 ^ e) : ℚ) * 2 ^ e - x
        = ((roundNE (x / 2 ^ e) : ℚ) - x / 2 ^ e) * 2 ^ e := by
      field_simp
    rw [h2, abs_mul, abs_of_pos hp]
    have h3 : (2 : ℚ) ^ (Int.log 2 |x|) ≤ |x| := by
      have := Int.zpow_log_le_self (b := 2) (by norm_num) hpos
      exact_mod_cast this
    have h4 : (2 : ℚ) ^ e = 2 ^ (-23 : ℤ) * 2 ^ (Int.log 2 |x|) := by
      rw [he, ← zpow_add₀ (by norm_num : (2 : ℚ) ≠ 0)]
      congr 1
      ring
    calc |(roundNE (x / 2 ^ e) : ℚ) - x / 2 ^ e| * 2 ^ e
        ≤ 1 / 2 * 2 ^ e := by gcongr
      _ = 2 ^ (-24 : ℤ) * 2 ^ (Int.log 2 |x|) := by
          rw [h4]
          norm_num
          ring
      _ ≤ 2 ^ (-24 : ℤ) * |x| := by gcongr

theorem f32round_nonneg (x : ℚ) (hx : 0 ≤ x) : 0 ≤ f32round x := by
  unfold f32round
  split_ifs with h0
  · exact le_refl _
  · simp only
    apply mul_nonneg _ (by positivity)
    have hq : (0 : ℚ) ≤ x / 2 ^ (Int.log 2 |x| - 23) := by positivity
    have hf : 0 ≤ ⌊x / 2 ^ (Int.log 2 |x| - 23)⌋ := Int.floor_nonneg.mpr hq
    unfold roundNE
    simp only
    split_ifs <;> exact_mod_cast (by omega)

theorem f32round_one : f32round 1 = 1 := by
  have := f32round_eval 1 (-23) (2 ^ 23) (by norm_num) (by norm_num) (by norm_num) (by norm_num)
  rw [this]
  norm_num

theorem f32round_hundred : f32round 100 = 100 := by
  have := f32round_eval 100 (-17) 13107200 (by norm_num) (by norm_num) (by norm_num) (by norm_num)
  rw [this]
  norm_num

theorem ackRatio_one_one : ackRatio 1 1 = 100 := by
  simp [ackRatio, f32mul, f32div, f32ofU32, f32round_one, f32round_hundred]

theorem ackRatio_one_two : ackRatio 1 2 = 50 := by
  have h2 : f32round 2 = 2 := by
    have := f32round_eval 2 (-22) (2 ^ 23) (by norm_num) (by norm_num) (by norm_num) (by norm_num)
    rw [this]
    norm_num
  have hh : f32round (1 / 2) = 1 / 2 := by
    have := f32round_eval (1 / 2) (-24) (2 ^ 23) (by norm_num) (by norm_num) (by norm_num) (by norm_num)
    rw [this]
    norm_num
  have h50 : f32round 50 = 50 := by
    have := f32round_eval 50 (-18) 13107200 (by norm_num) (by norm_num) (by norm_num) (by norm_num)
    rw [this]
    norm_num
  simp only [ackRatio, f32mul, f32div, f32ofU32]
  norm_num [f32round_one, h2, hh, h50]

/-- Single-precision evaluation of the ratio for 1 ack in 3 attempts:
`1 / 3` rounds to `11184811 / 2 ^ 25`, its product with 100 to
`8738134 / 2 ^ 18`. -/
theorem ackRatio_one_three : ackRatio 1 3 = 4369067 / 131072 := by
  have h3 : f32round 3 = 3 := by
    have := f32round_eval 3 (-22) (3 * 2 ^ 22) (by norm_num) (by norm_num) (by norm_num) (by norm_num)
    rw [this]
    norm_num
  have hq : f32round (1 / 3) = 11184811 / 2 ^ 25 := by
    have := f32round_eval (1 / 3) (-25) 11184811 (by norm_num) (by norm_num)
      (by norm_num) (by norm_num)
    rw [this]
    norm_num
  have hr : f32round (279620275 / 8388608) = 4369067 / 131072 := by
    have := f32round_eval (279620275 / 8388608) (-18) 8738134 (by norm_num) (by norm_num)
      (by norm_num) (by norm_num)
    rw [this]
    norm_num
  simp only [ackRatio, f32mul, f32div, f32ofU32]
  norm_num [f32round_one, h3, hq, hr]

theorem f32round_between (x : ℚ) (hx : 0 ≤ x) :
    (1 - 1 / 16777216) * x ≤ f32round x ∧ f32round x ≤ (1 + 1 / 16777216) * x := by
  have h := f32round_abs_sub_le x
  rw [abs_of_nonneg hx, abs_le] at h
  have e : (2 : ℚ) ^ (-24 : ℤ) = 1 / 16777216 := by norm_num
  rw [e] at h
  constructor <;> linarith [h.1, h.2]

/-- The computed ratio differs from `100 * acks / attempts` by a relative error
of at most `2 ^ (-21)`. -/
theorem ackRatio_error (acks attempts : Nat) (hn : attempts ≠ 0) :
    |ackRatio acks attempts - 100 * acks / attempts|
      ≤ 1 / 2097152 * (100 * acks / attempts) := by
  have ha0 : (0 : ℚ) ≤ acks := Nat.cast_nonneg _
  have hn0 : (0 : ℚ) < attempts := by exact_mod_cast Nat.pos_of_ne_zero hn
  obtain ⟨hA1, hA2⟩ := f32round_between acks ha0
  obtain ⟨hN1, hN2⟩ := f32round_between attempts hn0.le
  have hA0 : 0 ≤ f32round acks := f32round_nonneg _ ha0
  have hNpos : 0 < f32round attempts := lt_of_lt_of_le (by positivity) hN1
  have hq0 : 0 ≤ f32round acks / f32round attempts := div_nonneg hA0 hNpos.le
  obtain ⟨hQ1, hQ2⟩ := f32round_between _ hq0
  have hQ0 : 0 ≤ f32round (f32round acks / f32round attempts) := f32round_nonneg _ hq0
  have hm0 : 0 ≤ f32round (f32round acks / f32round attempts) * 100 := by positivity
  obtain ⟨hR1, hR2⟩ := f32round_between _ hm0
  have hhi : f32round acks / f32round attempts
      ≤ (1 + 1 / 16777216) * acks / ((1 - 1 / 16777216) * attempts) :=
    div_le_div₀ (by positivity) hA2 (by positivity) hN1
  have hlo : (1 - 1 / 16777216) * acks / ((1 + 1 / 16777216) * attempts)
      ≤ f32round acks / f32round attempts :=
    div_le_div₀ hA0 hA1 hNpos hN2
  have ehi : (1 + 1 / 16777216) * (acks : ℚ) / ((1 - 1 / 16777216) * attempts)
      = 16777217 / 16777215 * (acks / attempts) := by
    field_simp
    ring
  have elo : (1 - 1 / 16777216) * (acks : ℚ) / ((1 + 1 / 16777216) * attempts)
      = 16777215 / 16777217 * (acks / attempts) := by
    field_simp
    ring
  rw [ehi] at hhi
  rw [elo] at hlo
  have ht0 : (0 : ℚ) ≤ acks / attempts := by positivity
  have et : (100 : ℚ) * acks / attempts = 100 * (acks / attempts) := by ring
  unfold ackRatio f32mul f32div f32ofU32
  rw [if_pos hn, et, abs_le]
  constructor <;> nlinarith [hhi, hlo, hQ1, hQ2, hR1, hR2, ht0]

theorem ackRatio_no_acks (attempts : Nat) : ackRatio 0 attempts = 0 := by
  simp [ackRatio, f32mul, f32div, f32ofU32, f32round]

theorem ackRatio_all_acked (n : Nat) (hn : n ≠ 0) : ackRatio n n = 100 := by
  have hn0 : (0 : ℚ) < n := by exact_mod_cast Nat.pos_of_ne_zero hn
  have hpos : 0 < f32round n :=
    lt_of_lt_of_le (by positivity) (f32round_between n hn0.le).1
  unfold ackRatio f32mul f32div f32ofU32
  rw [if_pos hn, div_self hpos.ne.symm, f32round_one, one_mul, f32round_hundred]

/-- C4 (as stated, refuted): with 1 ack in 3 attempts the computed ratio is the
binary32 value `4369067 / 131072 = 33.33333587646484375`, not `100 / 3`. -/
theorem C4_counterexample :
    (1 : Nat) ≤ 3 ∧ ackRatio 1 3 = 4369067 / 131072
      ∧ ackRatio 1 3 ≠ 100 * ((1 : Nat) : ℚ) / ((3 : Nat) : ℚ) := by
  refine ⟨by decide, ackRatio_one_three, ?_⟩
  rw [ackRatio_one_three]
  norm_num

/-- C4 (amended): the delivery ratio computed by `prvAppTask` is 0 when
`confirmed_attempts == 0`; otherwise it is the single-precision value of
`(acks / attempts) * 100`, which differs from `100 * acks / attempts` by a
relative error of at most `2 ^ (-21)` and equals it exactly when
`acks == 0` or `acks == attempts`. -/
theorem C4_ratio (acks attempts : Nat) :
    (attempts = 0 → ackRatio acks attempts = 0)
      ∧ (attempts ≠ 0 →
          |ackRatio acks attempts - 100 * (acks : ℚ) / (attempts : ℚ)|
            ≤ 100 * (acks : ℚ) / (attempts : ℚ) / 2 ^ 21)
      ∧ (attempts ≠ 0 → acks = 0 ∨ acks = attempts →
          ackRatio acks attempts = 100 * (acks : ℚ) / (attempts : ℚ)) := by
  refine ⟨fun h => by simp [ackRatio, h], fun h => ?_, fun h hc => ?_⟩
  · have := ackRatio_error acks attempts h
    have e : 100 * (acks : ℚ) / (attempts : ℚ) / 2 ^ 21
        = 1 / 2097152 * (100 * (acks : ℚ) / (attempts : ℚ)) := by
      norm_num
      ring
    rw [e]
    exact this
  · rcases hc with hc | hc
    · rw [hc, ackRatio_no_acks]
      simp
    · have hn0 : (attempts : ℚ) ≠ 0 := by exact_mod_cast h
      rw [hc, ackRatio_all_acked attempts h, mul_div_assoc, div_self hn0, mul_one]

/-- C4 (amended) at 1 ack in 3 attempts. -/
theorem C4_ratio_witness :
    |ackRatio 1 3 - 100 * ((1 : Nat) : ℚ) / ((3 : Nat) : ℚ)|
      ≤ 100 * ((1 : Nat) : ℚ) / ((3 : Nat) : ℚ) / 2 ^ 21 :=
  (C4_ratio 1 3).2.1 (by decide)

theorem appCycle_ratio (a : SessionAnswers) (s : AppCounters) :
    (appCycle a s).ratio
      = ackRatio (appCycle a s).counters.confirmed_acks
          (appCycle a s).counters.confirmed_attempts := rfl

/-- C10: from zeroed counters, a first cycle of `prvAppTask` with result 0 and
the ack flag set gives `(confirmed_attempts, confirmed_acks) = (1, 1)` and
ratio 100.0; a second cycle with result -2 gives `(2, 1)` and ratio 50.0. -/
theorem C10_scenario (a1 a2 : SessionAnswers) (h1 : a1.result = 0) (hack : a1.ack ≠ 0)
    (h2 : a2.result = -2) :
    (appCycle a1 appInit).outcome = AckOutcome.Acknowledged
      ∧ (appCycle a1 appInit).counters.confirmed_attempts = 1
      ∧ (appCycle a1 appInit).counters.confirmed_acks = 1
      ∧ (appCycle a1 appInit).ratio = 100
      ∧ (appCycle a2 (appCycle a1 appInit).counters).outcome = AckOutcome.NotAcknowledged
      ∧ (appCycle a2 (appCycle a1 appInit).counters).counters.confirmed_attempts = 2
      ∧ (appCycle a2 (appCycle a1 appInit).counters).counters.confirmed_acks = 1
      ∧ (appCycle a2 (appCycle a1 appInit).counters).ratio = 50 := by
  have e1 : (appCycle a1 appInit).counters.confirmed_attempts = 1 := rfl
  have e2 : (appCycle a1 appInit).counters.confirmed_acks = 1 := by
    rw [appCycle_acks]
    simp [resultChain, h1, hack, appInit, u32add, U32]
  have e3 : (appCycle a2 (appCycle a1 appInit).counters).counters.confirmed_attempts = 2 := by
    rw [appCycle_attempts, e1]
    rfl
  have e4 : (appCycle a2 (appCycle a1 appInit).counters).counters.confirmed_acks = 1 := by
    rw [appCycle_acks, e2]
    simp [resultChain, h2]
  refine ⟨?_, e1, e2, ?_, ?_, e3, e4, ?_⟩
  · rw [appCycle_outcome]
    simp [resultChain, h1]
  · rw [appCycle_ratio, e1, e2, ackRatio_one_one]
  · rw [appCycle_outcome]
    simp [resultChain, h2]
  · rw [appCycle_ratio, e3, e4, ackRatio_one_two]

/-- C10 at concrete session answers. -/
theorem C10_scenario_witness :
    (appCycle answersAck appInit).counters.confirmed_attempts = 1
      ∧ (appCycle answersAck appInit).counters.confirmed_acks = 1
      ∧ (appCycle answersAck appInit).ratio = 100
      ∧ (appCycle (answersResult (-2)) (appCycle answersAck appInit).counters).counters.confirmed_attempts = 2
      ∧ (appCycle (answersResult (-2)) (appCycle answersAck appInit).counters).counters.confirmed_acks = 1
      ∧ (appCycle (answersResult (-2)) (appCycle answersAck appInit).counters).ratio = 50 :=
  have h := C10_scenario answersAck (answersResult (-2)) (by decide) (by decide) (by decide)
  ⟨h.2.1, h.2.2.1, h.2.2.2.1, h.2.2.2.2.2.1, h.2.2.2.2.2.2.1, h.2.2.2.2.2.2.2⟩

/-! ## The retry loop -/

theorem sendCount_append (l1 l2 : List MainEvent) :
    sendCount (l1 ++ l2) = sendCount l1 + sendCount l2 := by
  unfold sendCount
  exact List.countP_append _ _ _

theorem retryLoop_rejected (send : Nat → Int) (counter : Nat) (n retry : Nat)
    (h : ∀ j, j < n → send (retry + j) < 0) :
    (retryLoop send counter n retry).1 = false
      ∧ sendCount (retryLoop send counter n retry).2 = n := by
  induction n generalizing retry with
  | zero => exact ⟨rfl, rfl⟩
  | succ m ih =>
    have h0 : ¬ send retry ≥ 0 := by
      have := h 0 (Nat.succ_pos m)
      simp only [Nat.add_zero] at this
      omega
    have hrest := ih (retry + 1) (fun j hj => by
      have := h (j + 1) (by omega)
      rwa [show retry + 1 + j = retry + (j + 1) by omega])
    unfold retryLoop
    rw [if_neg h0]
    refine ⟨hrest.1, ?_⟩
    simp only [sendCount_append, hrest.2]
    split_ifs <;> simp [sendCount] <;> omega

theorem retryLoop_accepted (send : Nat → Int) (counter : Nat) (n retry k : Nat)
    (hk : k < n) (hacc : 0 ≤ send (retry + k)) (h : ∀ j, j < k → send (retry + j) < 0) :
    (retryLoop send counter n retry).1 = true
      ∧ sendCount (retryLoop send counter n retry).2 = k + 1 := by
  induction n generalizing retry k with
  | zero => omega
  | succ m ih =>
    unfold retryLoop
    cases k with
    | zero =>
      simp only [Nat.add_zero] at hacc
      rw [if_pos hacc]
      exact ⟨rfl, by simp [sendCount]⟩
    | succ k' =>
      have h0 : ¬ send retry ≥ 0 := by
        have := h 0 (Nat.succ_pos k')
        simp only [Nat.add_zero] at this
        omega
      have hrest := ih (retry + 1) k' (by omega)
        (by rwa [show retry + 1 + k' = retry + (k' + 1) by omega])
        (fun j hj => by
          have := h (j + 1) (by omega)
          rwa [show retry + 1 + j = retry + (j + 1) by omega])
      rw [if_neg h0]
      refine ⟨hrest.1, ?_⟩
      simp only [sendCount_append, hrest.2]
      split_ifs <;> simp [sendCount] <;> omega

/-- C5: in the retry loop of the advanced example the number of send requests
is `k + 1` when the `(k+1)`-th request is the first accepted one (`k < 200`)
and 200 when none of the first 200 is accepted; it never exceeds 200, and
`stack_ready` is true iff a request was accepted. -/
theorem C5_retry_loop (send : Nat → Int) (counter : Nat) :
    (∀ k, k < 200 → 0 ≤ send k → (∀ j, j < k → send j < 0) →
        sendCount (retryLoop send counter 200 0).2 = k + 1
          ∧ (retryLoop send counter 200 0).1 = true)
      ∧ ((∀ j, j < 200 → send j < 0) →
        sendCount (retryLoop send counter 200 0).2 = 200
          ∧ (retryLoop send counter 200 0).1 = false)
      ∧ sendCount (retryLoop send counter 200 0).2 ≤ 200
      ∧ ((retryLoop send counter 200 0).1 = true ↔ ∃ k, k < 200 ∧ 0 ≤ send k) := by
  have hacc : ∀ k, k < 200 → 0 ≤ send k → (∀ j, j < k → send j < 0) →
      sendCount (retryLoop send counter 200 0).2 = k + 1
        ∧ (retryLoop send counter 200 0).1 = true := by
    intro k hk h0 hlt
    have := retryLoop_accepted send counter 200 0 k hk (by simpa using h0)
      (fun j hj => by simpa using hlt j hj)
    exact ⟨this.2, this.1⟩
  have hrej : (∀ j, j < 200 → send j < 0) →
      sendCount (retryLoop send counter 200 0).2 = 200
        ∧ (retryLoop send counter 200 0).1 = false := by
    intro h
    have := retryLoop_rejected send counter 200 0 (fun j hj => by simpa using h j hj)
    exact ⟨this.2, this.1⟩
  refine ⟨hacc, hrej, ?_, ?_⟩
  · by_cases hex : ∃ k, k < 200 ∧ 0 ≤ send k
    · have hmin := Nat.find_spec hex
      have hlt : ∀ j, j < Nat.find hex → send j < 0 := fun j hj => by
        have := Nat.find_min hex hj
        push_neg at this
        exact this (lt_trans hj hmin.1)
      rw [(hacc _ hmin.1 hmin.2 hlt).1]
      omega
    · push_neg at hex
      rw [(hrej hex).1]
  · constructor
    · intro ht
      by_contra hex
      push_neg at hex
      rw [(hrej hex).2] at ht
      exact Bool.false_ne_true ht
    · intro hex
      have hmin := Nat.find_spec hex
      have hlt : ∀ j, j < Nat.find hex → send j < 0 := fun j hj => by
        have := Nat.find_min hex hj
        push_neg at this
        exact this (lt_trans hj hmin.1)
      exact (hacc _ hmin.1 hmin.2 hlt).2

/-- C5 when the third send request is the first accepted one. -/
theorem C5_retry_loop_witness :
    sendCount (retryLoop sendThird 7 200 0).2 = 2 + 1
      ∧ (retryLoop sendThird 7 200 0).1 = true :=
  (C5_retry_loop sendThird 7).1 2 (by decide) (by decide) (by decide)

/-! ## The ack-wait loop -/

/-- The ack-wait loop ends within `fuel` evaluations of its condition when one
of them sees an acknowledgment or the timeout. -/
theorem ackWait_terminates (ack_start : Nat) (clock : Nat → Nat) (status : Nat → Bool)
    (fuel i k : Nat) (hk : k < fuel)
    (hexit : status (i + k) = true ∨ 30000 ≤ u32sub (clock (i + k)) ack_start) :
    ∃ w, ackWait ack_start clock status fuel i = some w := by
  induction fuel generalizing i k with
  | zero => omega
  | succ f ih =>
    unfold ackWait
    by_cases hc : u32sub (clock i) ack_start < 30000
    · rw [if_pos hc]
      by_cases hs : status i = true
      · rw [if_pos hs]
        exact ⟨_, rfl⟩
      · rw [if_neg hs]
        cases k with
        | zero =>
          simp only [Nat.add_zero] at hexit
          rcases hexit with h | h
          · exact absurd h hs
          · omega
        | succ k' =>
          obtain ⟨w, hw⟩ := ih (i + 1) k' (by omega)
            (by rwa [show i + 1 + k' = i + (k' + 1) by omega])
          rw [hw]
          exact ⟨_, rfl⟩
    · rw [if_neg hc]
      exact ⟨_, rfl⟩

/-- What the result of the ack-wait loop says about the polls that ran. -/
theorem ackWait_spec (ack_start : Nat) (clock : Nat → Nat) (status : Nat → Bool)
    (fuel i : Nat) (w : Bool × List MainEvent)
    (h : ackWait ack_start clock status fuel i = some w) :
    ∃ k, k < fuel
      ∧ (∀ j, j < k → status (i + j) = false ∧ u32sub (clock (i + j)) ack_start < 30000)
      ∧ (w.1 = true → status (i + k) = true ∧ u32sub (clock (i + k)) ack_start < 30000)
      ∧ (w.1 = false → 30000 ≤ u32sub (clock (i + k)) ack_start) := by
  induction fuel generalizing i w with
  | zero => simp [ackWait] at h
  | succ f ih =>
    unfold ackWait at h
    by_cases hc : u32sub (clock i) ack_start < 30000
    · rw [if_pos hc] at h
      by_cases hs : status i = true
      · rw [if_pos hs] at h
        cases h
        exact ⟨0, Nat.succ_pos f, fun j hj => absurd hj (Nat.not_lt_zero j),
          fun _ => ⟨hs, hc⟩, fun hf => by simp at hf⟩
      · rw [if_neg hs] at h
        cases hr : ackWait ack_start clock status f (i + 1) with
        | none => simp [hr] at h
        | some r =>
          simp only [hr, Option.some.injEq] at h
          obtain ⟨k, hk, hbefore, ht, hf⟩ := ih (i + 1) r hr
          refine ⟨k + 1, by omega, ?_, ?_, ?_⟩
          · intro j hj
            cases j with
            | zero => exact ⟨by simpa using hs, hc⟩
            | succ j' =>
              have := hbefore j' (by omega)
              rwa [show i + 1 + j' = i + (j' + 1) by omega] at this
          · intro hw
            rw [← h] at hw
            have := ht hw
            rwa [show i + 1 + k = i + (k + 1) by omega] at this
          · intro hw
            rw [← h] at hw
            have := hf hw
            rwa [show i + 1 + k = i + (k + 1) by omega] at this
    · rw [if_neg hc] at h
      cases h
      exact ⟨0, Nat.succ_pos f, fun j hj => absurd hj (Nat.not_lt_zero j),
        fun ht => by simp at ht, fun _ => by simpa using hc⟩

/-! ## The uplink cycle and the main loop -/

theorem settleLoop_ne_nil (n settle : Nat) : settleLoop (n + 1) settle ≠ [] := by
  simp [settleLoop]

/-- The uplink cycle ends when the retry budget is exhausted, or when the
ack-wait loop ends within `fuel`. -/
theorem uplinkCycle_terminates (fuel : Nat) (a : IterAnswers) (counter : Nat)
    (h : (∀ j, j < 200 → a.send j < 0)
      ∨ ∃ k, k < fuel ∧ (a.status k = true
          ∨ 30000 ≤ u32sub (a.clock k) (a.ack_start % U32))) :
    ∃ c, uplinkCycle fuel a counter = some c := by
  unfold uplinkCycle
  simp only
  by_cases hr : (retryLoop a.send counter 200 0).1 = true
  · rw [if_pos hr]
    rcases h with h | ⟨k, hk, hexit⟩
    · have := (retryLoop_rejected a.send counter 200 0 (fun j hj => by simpa using h j hj)).1
      rw [this] at hr
      exact absurd hr Bool.false_ne_true
    · obtain ⟨w, hw⟩ := ackWait_terminates (a.ack_start % U32) a.clock a.status fuel 0 k hk
        (by simpa using hexit)
      rw [hw]
      simp only
      split_ifs <;> exact ⟨_, rfl⟩
  · rw [if_neg hr]
    exact ⟨_, rfl⟩

theorem mainIter_terminates (fuel : Nat) (a : IterAnswers) (s : MainState)
    (h : (∀ j, j < 200 → a.send j < 0)
      ∨ ∃ k, k < fuel ∧ (a.status k = true
          ∨ 30000 ≤ u32sub (a.clock k) (a.ack_start % U32))) :
    ∃ r, mainIter fuel a s = some r := by
  unfold mainIter
  simp only
  by_cases hdue : u32sub (a.now % U32) s.last_message_time > 120000
  · obtain ⟨c, hc⟩ := uplinkCycle_terminates fuel a (u32inc s.message_counter) h
    rw [if_pos hdue, hc]
    exact ⟨_, rfl⟩
  · rw [if_neg hdue]
    exact ⟨_, rfl⟩

theorem mainIter_due (fuel : Nat) (a : IterAnswers) (s : MainState) (r : IterResult)
    (hdue : 120000 < u32sub (a.now % U32) s.last_message_time)
    (h : mainIter fuel a s = some r) :
    r.state.last_message_time = a.now % U32 ∧ r.cycle.isSome = true := by
  unfold mainIter at h
  simp only at h
  rw [if_pos hdue] at h
  cases hc : uplinkCycle fuel a (u32inc s.message_counter) with
  | none => simp [hc] at h
  | some c =>
    simp only [hc, Option.some.injEq] at h
    rw [← h]
    exact ⟨rfl, rfl⟩

theorem mainIter_not_due (fuel : Nat) (a : IterAnswers) (s : MainState) (r : IterResult)
    (hdue : ¬ 120000 < u32sub (a.now % U32) s.last_message_time)
    (h : mainIter fuel a s = some r) :
    r.state.last_message_time = s.last_message_time ∧ r.cycle = none := by
  unfold mainIter at h
  simp only at h
  rw [if_neg hdue] at h
  simp only [Option.some.injEq] at h
  rw [← h]
  exact ⟨rfl, rfl⟩

/-- An iteration that has not ended within `fuel` is inside an uplink cycle. -/
theorem mainIter_none_due (fuel : Nat) (a : IterAnswers) (s : MainState)
    (h : mainIter fuel a s = none) :
    120000 < u32sub (a.now % U32) s.last_message_time := by
  by_contra hdue
  unfold mainIter at h
  simp only at h
  rw [if_neg hdue] at h
  exact Option.some_ne_none _ h

/-- C6: in an iteration of the advanced example in which an uplink cycle runs,
`last_message_time` ends as the value of `now` sampled at the start of the
iteration, whatever the outcome of the cycle and however many retries and polls
it made; and the iteration does end when the retry budget is exhausted or the
ack-wait loop ends. -/
theorem C6_last_message_time (fuel : Nat) (a : IterAnswers) (s : MainState)
    (hdue : 120000 < u32sub (a.now % 2 ^ 32) s.last_message_time) :
    (∀ r, mainIter fuel a s = some r → r.state.last_message_time = a.now % 2 ^ 32)
      ∧ (((∀ j, j < 200 → a.send j < 0)
          ∨ ∃ k, k < fuel ∧ (a.status k = true
              ∨ 30000 ≤ u32sub (a.clock k) (a.ack_start % 2 ^ 32))) →
        ∃ r, mainIter fuel a s = some r
          ∧ r.state.last_message_time = a.now % 2 ^ 32) := by
  refine ⟨fun r h => (mainIter_due fuel a s r hdue h).1, fun h => ?_⟩
  obtain ⟨r, hr⟩ := mainIter_terminates fuel a s h
  exact ⟨r, hr, (mainIter_due fuel a s r hdue hr).1⟩

/-- C6 at an acknowledged cycle starting at 130000 ms. -/
theorem C6_last_message_time_witness :
    ∃ r, mainIter 10 (iterAcked 130000) mainInit = some r
      ∧ r.state.last_message_time = 130000 % 2 ^ 32 :=
  (C6_last_message_time 10 (iterAcked 130000) mainInit (by decide)).2
    (Or.inr ⟨3, by decide, Or.inl (by decide)⟩)

/-! ## Scheduling of the uplink cycle -/

theorem mainRun_chain (fuel : Nat) (l : List IterAnswers) (s : MainState)
    (out : MainState × List Nat) (h : mainRun fuel l s = some out) :
    List.Chain (fun t1 t2 => 120000 < u32sub t2 t1) s.last_message_time out.2 := by
  induction l generalizing s out with
  | nil =>
    simp only [mainRun, Option.some.injEq] at h
    rw [← h]
    exact List.Chain.nil
  | cons a rest ih =>
    unfold mainRun at h
    cases hr : mainIter fuel a s with
    | none => simp [hr] at h
    | some r =>
      simp only [hr] at h
      cases ho : mainRun fuel rest r.state with
      | none => simp [ho] at h
      | some o =>
        simp only [ho, Option.some.injEq] at h
        have hrest := ih r.state o ho
        rw [← h]
        by_cases hdue : 120000 < u32sub (a.now % U32) s.last_message_time
        · obtain ⟨h1, h2⟩ := mainIter_due fuel a s r hdue hr
          rw [h1] at hrest
          simp only [h2, if_true, List.singleton_append]
          exact List.Chain.cons hdue hrest
        · obtain ⟨h1, h2⟩ := mainIter_not_due fuel a s r hdue hr
          rw [h1] at hrest
          simpa [h2] using hrest

/-- C7 (as stated, refuted): two consecutive uplink cycles start at 120001 ms
and 240101 ms, 120100 ms apart; the iteration sampled exactly 120000 ms after
the first start does not start a cycle. -/
theorem C7_counterexample :
    mainRun 10 [iterAcked 120001, iterBusy 240001, iterBusy 240101] mainInit
        = some ({ last_message_time := 240101, last_link_check_time := 0,
                  message_counter := 2 }, [120001, 240101])
      ∧ u32sub 240101 120001 ≠ 120000 := by
  decide

/-- C7 (amended): for every two consecutive uplink cycles of the main loop of
the advanced example, the start time of the later one minus the start time of
the earlier one, modulo `2 ^ 32`, is strictly greater than 120000 ms. -/
theorem C7_consecutive_starts (fuel : Nat) (l : List IterAnswers) (s : MainState)
    (out : MainState × List Nat) (h : mainRun fuel l s = some out) :
    List.Chain' (fun t1 t2 => 120000 < (t2 % 2 ^ 32 + 2 ^ 32 - t1 % 2 ^ 32) % 2 ^ 32)
      out.2 :=
  List.Chain'.tail (l := s.last_message_time :: out.2) (mainRun_chain fuel l s out h)

/-- C7 (amended) at a run of three iterations with two cycles. -/
theorem C7_consecutive_starts_witness :
    List.Chain' (fun t1 t2 => 120000 < (t2 % 2 ^ 32 + 2 ^ 32 - t1 % 2 ^ 32) % 2 ^ 32)
      [120001, 240101] :=
  C7_consecutive_starts 10 [iterAcked 120001, iterBusy 240001, iterBusy 240101] mainInit
    ({ last_message_time := 240101, last_link_check_time := 0, message_counter := 2 },
      [120001, 240101]) (by decide)

theorem u32sub_elapsed (last e : Nat) (hl : last < U32) (he : e < U32) :
    u32sub ((last + e) % U32) last = e := by
  unfold u32sub U32 at *
  omega

/-- C8: an iteration of the main loop starts an uplink cycle iff the unsigned
32-bit difference `now - last_message_time` exceeds 120000 (an iteration that
has not ended is inside a cycle); so for a true elapsed time `e < 2 ^ 32` since
the previous start, also across a wrap-around of the clock, iff `e > 120000`. -/
theorem C8_cycle_due (fuel : Nat) (a : IterAnswers) (s : MainState) :
    (∀ r, mainIter fuel a s = some r →
        (r.cycle.isSome = true
          ↔ 120000 < (a.now % 2 ^ 32 + 2 ^ 32 - s.last_message_time % 2 ^ 32) % 2 ^ 32))
      ∧ (mainIter fuel a s = none →
          120000 < (a.now % 2 ^ 32 + 2 ^ 32 - s.last_message_time % 2 ^ 32) % 2 ^ 32)
      ∧ ∀ e, s.last_message_time < 2 ^ 32 → e < 2 ^ 32 →
          a.now % 2 ^ 32 = (s.last_message_time + e) % 2 ^ 32 →
          (120000 < (a.now % 2 ^ 32 + 2 ^ 32 - s.last_message_time % 2 ^ 32) % 2 ^ 32
            ↔ 120000 < e) := by
  have hsub : (a.now % 2 ^ 32 + 2 ^ 32 - s.last_message_time % 2 ^ 32) % 2 ^ 32
      = u32sub (a.now % U32) s.last_message_time := by
    unfold u32sub U32
    simp
  rw [hsub]
  refine ⟨fun r h => ?_, mainIter_none_due fuel a s, fun e hl he hnow => ?_⟩
  · by_cases hdue : 120000 < u32sub (a.now % U32) s.last_message_time
    · simp [hdue, (mainIter_due fuel a s r hdue h).2]
    · simp [hdue, (mainIter_not_due fuel a s r hdue h).2]
  · have : a.now % U32 = (s.last_message_time + e) % U32 := hnow
    rw [this, u32sub_elapsed _ _ hl he]

/-- C8 across a wrap-around: last start at `2 ^ 32 - 1000`, 130000 ms
elapsed, `now = 129000`. -/
theorem C8_cycle_due_witness :
    ∃ r, mainIter 1 (iterBusy 129000) stateBeforeWrap = some r ∧ r.cycle.isSome = true := by
  obtain ⟨r, hr⟩ := mainIter_terminates 1 (iterBusy 129000) stateBeforeWrap
    (Or.inl (fun _ _ => show (-1 : Int) < 0 by decide))
  have h := C8_cycle_due 1 (iterBusy 129000) stateBeforeWrap
  exact ⟨r, hr, (h.1 r hr).mpr
    ((h.2.2 130000 (by decide) (by decide) (by decide)).mpr (by decide))⟩

/-- C9: in an uplink cycle of the advanced example the settle loop runs only if
the retry loop got a send accepted and a poll of the ack-wait loop, made within
the 30000 ms timeout, returned the confirmed status; it does not run when the
ack-wait loop ended by the timeout nor when the retry budget was exhausted. -/
theorem C9_settle_only_after_ack (fuel : Nat) (a : IterAnswers) (counter : Nat)
    (c : UplinkCycle) (h : uplinkCycle fuel a counter = some c) :
    (c.settleEvents ≠ [] →
        c.stack_ready = true ∧ c.ack_received = true
          ∧ ∃ k, k < fuel ∧ a.status k = true
              ∧ u32sub (a.clock k) (a.ack_start % 2 ^ 32) < 30000)
      ∧ (c.ack_received = false → c.settleEvents = [])
      ∧ (c.stack_ready = false → c.ack_received = false ∧ c.settleEvents = [])
      ∧ (c.ack_received = true →
          c.settleEvents = settleLoop 300 0 ∧ c.settleEvents ≠ []) := by
  unfold uplinkCycle at h
  simp only at h
  by_cases hr : (retryLoop a.send counter 200 0).1 = true
  · rw [if_pos hr] at h
    cases hw : ackWait (a.ack_start % U32) a.clock a.status fuel 0 with
    | none => simp [hw] at h
    | some w =>
      simp only [hw] at h
      obtain ⟨k, hk, -, ht, -⟩ := ackWait_spec _ _ _ _ _ _ hw
      by_cases hack : w.1 = true
      · rw [if_pos hack, Option.some.injEq] at h
        have hk2 := ht hack
        simp only [Nat.zero_add] at hk2
        rw [← h]
        exact ⟨fun _ => ⟨rfl, rfl, k, hk, hk2.1, hk2.2⟩, fun hf => by simp at hf,
          fun hf => by simp at hf, fun _ => ⟨rfl, settleLoop_ne_nil 299 0⟩⟩
      · rw [if_neg hack, Option.some.injEq] at h
        rw [← h]
        exact ⟨fun hne => absurd rfl hne, fun _ => rfl, fun hf => by simp at hf,
          fun hf => by simp at hf⟩
  · rw [if_neg hr, Option.some.injEq] at h
    rw [← h]
    exact ⟨fun hne => absurd rfl hne, fun _ => rfl, fun _ => ⟨rfl, rfl⟩,
      fun hf => by simp at hf⟩

/-- C9 at a cycle acknowledged on the fourth status poll. -/
theorem C9_settle_only_after_ack_witness :
    ∃ c, uplinkCycle 10 (iterAcked 130000) 1 = some c
      ∧ c.ack_received = true ∧ c.settleEvents = settleLoop 300 0 := by
  obtain ⟨c, hc⟩ := uplinkCycle_terminates 10 (iterAcked 130000) 1
    (Or.inr ⟨3, by decide, Or.inl (by decide)⟩)
  have hack : c.ack_received = true := by
    have h2 : (uplinkCycle 10 (iterAcked 130000) 1).map (fun c => c.ack_received)
        = some true := by decide
    rw [hc] at h2
    simpa using h2
  exact ⟨c, hc, hack,
    ((C9_settle_only_after_ack 10 (iterAcked 130000) 1 c hc).2.2.2 hack).1⟩

/-! ## Startup of `prvAppTask` -/

theorem appLoop_counters (answers : Nat → SessionAnswers) (n : Nat) :
    (appLoop answers n).1 = appRun answers n := by
  induction n with
  | zero => rfl
  | succ k ih =>
    show (appCycle (answers k) (appLoop answers k).1).counters = _
    rw [ih]
    rfl

theorem appLoop_sends (answers : Nat → SessionAnswers) (n : Nat) (hn : 0 < n) :
    ∃ k, AppEvent.sendConfirmedWait k ∈ (appLoop answers n).2 := by
  cases n with
  | zero => omega
  | succ m =>
    refine ⟨(appLoop answers m).1.message_count, ?_⟩
    show _ ∈ (appLoop answers m).2 ++ (appCycle (answers m) (appLoop answers m).1).events
    apply List.mem_append_right
    simp [appCycle]

/-- C11: if `lorawan_init_otaa` returns a negative value, or the session is not
joined and `lorawan_join_freertos(60000)` returns a negative value, the task
ends (`vTaskDelete`) without entering the loop: no call of the loop, in
particular no send, is made and the counters keep their initial value.  A send
is issued only when initialisation succeeded and the session is joined,
restored or freshly; the calls of the loop then follow the startup calls. -/
theorem C11_no_send_without_join (st : StartupAnswers) (answers : Nat → SessionAnswers)
    (n : Nat) :
    ((st.init_rc < 0 ∨ (st.is_joined = 0 ∧ st.join_rc < 0)) →
        (prvAppTask st answers n).entered = false
          ∧ (prvAppTask st answers n).counters = appInit
          ∧ (∀ e, TaskEvent.loop e ∉ (prvAppTask st answers n).events)
          ∧ TaskEvent.taskDelete ∈ (prvAppTask st answers n).events)
      ∧ ((∃ e, e ∈ (prvAppTask st answers n).events ∧ e.isSend = true) →
          0 ≤ st.init_rc ∧ (st.is_joined ≠ 0 ∨ 0 ≤ st.join_rc))
      ∧ (0 ≤ st.init_rc → (st.is_joined ≠ 0 ∨ 0 ≤ st.join_rc) →
          (prvAppTask st answers n).entered = true
            ∧ (prvAppTask st answers n).counters = appRun answers n
            ∧ ∃ pre, (prvAppTask st answers n).events
                  = pre ++ (appLoop answers n).2.map TaskEvent.loop
                ∧ TaskEvent.initOtaa ∈ pre ∧ TaskEvent.isJoined ∈ pre
                ∧ (st.is_joined = 0 → TaskEvent.joinFreertos 60000 ∈ pre)
                ∧ (∀ e, TaskEvent.loop e ∉ pre)
                ∧ (0 < n → ∃ k, TaskEvent.loop (AppEvent.sendConfirmedWait k)
                    ∈ (appLoop answers n).2.map TaskEvent.loop)) := by
  have hfail : (st.init_rc < 0 ∨ (st.is_joined = 0 ∧ st.join_rc < 0)) →
      (prvAppTask st answers n).entered = false
        ∧ (prvAppTask st answers n).counters = appInit
        ∧ (∀ e, TaskEvent.loop e ∉ (prvAppTask st answers n).events)
        ∧ TaskEvent.taskDelete ∈ (prvAppTask st answers n).events := by
    intro h
    unfold prvAppTask
    by_cases hi : st.init_rc < 0
    · simp [hi]
    · rcases h with h | ⟨hj, hr⟩
      · exact absurd h hi
      · simp [hi, hj, hr]
  refine ⟨hfail, ?_, ?_⟩
  · rintro ⟨e, he, hs⟩
    by_contra hcon
    have hf : st.init_rc < 0 ∨ (st.is_joined = 0 ∧ st.join_rc < 0) := by
      by_cases hi : st.init_rc < 0
      · exact Or.inl hi
      · right
        push_neg at hcon hi
        exact hcon hi
    obtain ⟨-, -, hno, -⟩ := hfail hf
    cases e with
    | loop e' => exact hno e' he
    | _ => simp [TaskEvent.isSend] at hs
  · intro hi hj
    have hi' : ¬ st.init_rc < 0 := by omega
    have hsend : 0 < n → ∃ k, TaskEvent.loop (AppEvent.sendConfirmedWait k)
        ∈ (appLoop answers n).2.map TaskEvent.loop := fun hn => by
      obtain ⟨k, hk⟩ := appLoop_sends answers n hn
      exact ⟨k, List.mem_map_of_mem _ hk⟩
    unfold prvAppTask
    by_cases h0 : st.is_joined = 0
    · have hr : ¬ st.join_rc < 0 := by
        rcases hj with hj | hj
        · exact absurd h0 hj
        · omega
      dsimp only
      rw [if_neg hi', if_pos h0, if_neg hr]
      refine ⟨rfl, appLoop_counters answers n, _, rfl, ?_⟩
      refine ⟨?_, ?_, ?_, ?_, hsend⟩ <;> simp
    · dsimp only
      rw [if_neg hi', if_neg h0]
      refine ⟨rfl, appLoop_counters answers n, _, rfl, ?_⟩
      refine ⟨?_, ?_, ?_, ?_, hsend⟩ <;> simp [h0]

/-- C11 at a join time-out: the task ends without a send. -/
theorem C11_no_send_without_join_witness :
    (prvAppTask startupJoinFails answersAckThenNot 2).entered = false
      ∧ (prvAppTask startupJoinFails answersAckThenNot 2).counters = appInit
      ∧ (∀ e, TaskEvent.loop e ∉ (prvAppTask startupJoinFails answersAckThenNot 2).events)
      ∧ TaskEvent.taskDelete ∈ (prvAppTask startupJoinFails answersAckThenNot 2).events :=
  (C11_no_send_without_join startupJoinFails answersAckThenNot 2).1
    (Or.inr ⟨by decide, by decide⟩)

/-! ## Downlink polls and the result chain of `prvAppTask` -/

/-- The downlink poll of the advanced main loop (lines 223-232) leaves the
state of the loop alone. -/
theorem mainIter_receive_frame (fuel : Nat) (m : IterAnswers) (ms : MainState)
    (rl : Int) (rp : Nat) (rb : List Nat) :
    (mainIter fuel (m.withReceive rl rp rb) ms).map (fun r => r.state)
      = (mainIter fuel m ms).map (fun r => r.state) := by
  have hc : ∀ c, uplinkCycle fuel (m.withReceive rl rp rb) c = uplinkCycle fuel m c :=
    fun _ => rfl
  have hl : linkCheck (m.withReceive rl rp rb) = linkCheck m := rfl
  have hn : (m.withReceive rl rp rb).now = m.now := rfl
  unfold mainIter
  dsimp only
  rw [hc, hl, hn]
  by_cases hdue : u32sub (m.now % U32) ms.last_message_time > 120000
  · rw [if_pos hdue, if_pos hdue]
    cases uplinkCycle fuel m (u32inc ms.message_counter) <;> rfl
  · rw [if_neg hdue, if_neg hdue]
    rfl

/-- C12: the two downlink polls of a cycle of `prvAppTask` do not touch the
uplink state: whatever the two `lorawan_receive` calls return, the outcome, the
three counters and the ratio of the cycle are the same and the outcome is the
one of the result chain; a negative result of a poll produces no downlink
report of that poll.  The downlink poll of the advanced main loop leaves the
state of that loop alone as well. -/
theorem C12_downlink_polls_frame (a : SessionAnswers) (s : AppCounters)
    (il : Int) (ip : Nat) (rl : Int) (rp : Nat) (rb : List Nat)
    (fuel : Nat) (m : IterAnswers) (ms : MainState) :
    (appCycle (a.withPolls il ip rl rp rb) s).counters = (appCycle a s).counters
      ∧ (appCycle (a.withPolls il ip rl rp rb) s).outcome = (appCycle a s).outcome
      ∧ (appCycle (a.withPolls il ip rl rp rb) s).ratio = (appCycle a s).ratio
      ∧ (appCycle a s).outcome = (resultChain a.result a.ack s.confirmed_acks).2
      ∧ (a.immediate_length < 0 →
          ∀ l p, AppEvent.immediateDownlink l p ∉ (appCycle a s).events)
      ∧ (a.receive_length < 0 →
          ∀ l p b, AppEvent.downlink l p b ∉ (appCycle a s).events)
      ∧ (mainIter fuel (m.withReceive rl rp rb) ms).map (fun r => r.state)
          = (mainIter fuel m ms).map (fun r => r.state) := by
  refine ⟨rfl, rfl, rfl, rfl, fun h l p => ?_, fun h l p b => ?_,
    mainIter_receive_frame fuel m ms rl rp rb⟩
  · have h1 : ¬ a.immediate_length > -1 := by omega
    simp only [appCycle, h1, if_false]
    split_ifs <;> simp
  · have h1 : ¬ a.receive_length > -1 := by omega
    simp only [appCycle, h1, if_false]
    split_ifs <;> simp

/-- C12 at a cycle in which both polls return -1. -/
theorem C12_downlink_polls_frame_witness :
    ∀ l p, AppEvent.immediateDownlink l p ∉ (appCycle answersAck appInit).events :=
  (C12_downlink_polls_frame answersAck appInit 0 0 0 0 [] 1 (iterBusy 0)
    mainInit).2.2.2.2.1 (by decide)

theorem appCycle_reports (a : SessionAnswers) (s : AppCounters) :
    (appCycle a s).events.filter AppEvent.isReport
      = [AppEvent.report (appCycle a s).outcome a.result] := by
  simp only [appCycle]
  split_ifs <;> simp [List.filter_cons, AppEvent.isReport]

/-- C14: the outcome of a cycle of `prvAppTask` is a total function of the
result code: 0 is Acknowledged, -2 NotAcknowledged, -3 SendTimedOut and every
other integer SendNotStarted; the cycle reports exactly one outcome. -/
theorem C14_outcome_classification (a : SessionAnswers) (s : AppCounters) :
    ((appCycle a s).outcome = AckOutcome.Acknowledged ↔ a.result = 0)
      ∧ ((appCycle a s).outcome = AckOutcome.NotAcknowledged ↔ a.result = -2)
      ∧ ((appCycle a s).outcome = AckOutcome.SendTimedOut ↔ a.result = -3)
      ∧ ((appCycle a s).outcome = AckOutcome.SendNotStarted
          ↔ a.result ≠ 0 ∧ a.result ≠ -2 ∧ a.result ≠ -3)
      ∧ (appCycle a s).events.filter AppEvent.isReport
          = [AppEvent.report (appCycle a s).outcome a.result] := by
  refine ⟨?_, ?_, ?_, ?_, appCycle_reports a s⟩ <;>
    · rw [appCycle_outcome]
      unfold resultChain
      split_ifs <;> simp_all

/-! ## The link check -/

theorem linkRequestCount_append (l1 l2 : List MainEvent) :
    linkRequestCount (l1 ++ l2) = linkRequestCount l1 + linkRequestCount l2 := by
  unfold linkRequestCount
  exact List.countP_append _ _ _

/-- The poll loop of the link check is `n` times `lorawan_process()` followed by
`sleep_ms(100)`, and nothing else. -/
theorem linkPollLoop_eq (n : Nat) :
    linkPollLoop n = (List.replicate n [MainEvent.process, MainEvent.sleep 100]).flatten := by
  induction n with
  | zero => rfl
  | succ k ih =>
    unfold linkPollLoop
    rw [ih, List.replicate_succ, List.flatten_cons]

theorem linkPollLoop_no_request (n : Nat) : linkRequestCount (linkPollLoop n) = 0 := by
  induction n with
  | zero => rfl
  | succ k ih =>
    unfold linkPollLoop
    rw [linkRequestCount_append, ih]
    rfl

/-- State and link-check calls of an iteration that ends. -/
theorem mainIter_link (fuel : Nat) (a : IterAnswers) (s : MainState) (r : IterResult)
    (h : mainIter fuel a s = some r) :
    (300000 < u32sub (a.now % U32) s.last_link_check_time →
        r.linkEvents = linkCheck a ∧ r.state.last_link_check_time = a.now % U32)
      ∧ (¬ 300000 < u32sub (a.now % U32) s.last_link_check_time →
        r.linkEvents = [] ∧ r.state.last_link_check_time = s.last_link_check_time) := by
  unfold mainIter at h
  dsimp only at h
  by_cases hdue : u32sub (a.now % U32) s.last_message_time > 120000
  · rw [if_pos hdue] at h
    cases hc : uplinkCycle fuel a (u32inc s.message_counter) with
    | none => simp [hc] at h
    | some c =>
      simp only [hc, Option.some.injEq] at h
      rw [← h]
      constructor <;> intro hl <;> simp [hl]
  · rw [if_neg hdue, Option.some.injEq] at h
    rw [← h]
    constructor <;> intro hl <;> simp [hl]

theorem mainIter_withLinkResponse (fuel : Nat) (a : IterAnswers) (s : MainState)
    (margin gateways : Nat) :
    (mainIter fuel (a.withLinkResponse margin gateways) s).map (fun r => r.state)
      = (mainIter fuel a s).map (fun r => r.state) := by
  have hc : ∀ c, uplinkCycle fuel (a.withLinkResponse margin gateways) c
      = uplinkCycle fuel a c := fun _ => rfl
  have hn : (a.withLinkResponse margin gateways).now = a.now := rfl
  unfold mainIter
  dsimp only
  rw [hc, hn]
  by_cases hdue : u32sub (a.now % U32) s.last_message_time > 120000
  · rw [if_pos hdue, if_pos hdue]
    cases uplinkCycle fuel a (u32inc s.message_counter) with
    | none => rfl
    | some c =>
      by_cases hl : u32sub (a.now % U32) s.last_link_check_time > 300000
      · simp [hl]
      · simp [hl]
  · rw [if_neg hdue, if_neg hdue]
    by_cases hl : u32sub (a.now % U32) s.last_link_check_time > 300000
    · simp [hl]
    · simp [hl]

/-- What the uplink branch makes of `last_message_time` and `message_counter`. -/
theorem mainIter_uplink_state (fuel : Nat) (a : IterAnswers) (s : MainState) (r : IterResult)
    (h : mainIter fuel a s = some r) :
    r.state.last_message_time
        = (if 120000 < u32sub (a.now % U32) s.last_message_time then a.now % U32
           else s.last_message_time)
      ∧ r.state.message_counter
        = (if 120000 < u32sub (a.now % U32) s.last_message_time
           then u32inc s.message_counter else s.message_counter) := by
  unfold mainIter at h
  dsimp only at h
  by_cases hd : 120000 < u32sub (a.now % U32) s.last_message_time
  · rw [if_pos hd] at h
    cases hc : uplinkCycle fuel a (u32inc s.message_counter) with
    | none => simp [hc] at h
    | some c =>
      simp only [hc, Option.some.injEq] at h
      rw [← h, if_pos hd, if_pos hd]
      exact ⟨rfl, rfl⟩
  · rw [if_neg hd, Option.some.injEq] at h
    rw [← h, if_neg hd, if_neg hd]
    exact ⟨rfl, rfl⟩

theorem linkCheck_no_response (a : IterAnswers) (hreq : a.link_request = 0)
    (hres : a.link_result ≠ 0) :
    linkCheck a = [MainEvent.print MainMsg.requestingLinkCheck, MainEvent.requestLinkCheck,
        MainEvent.print MainMsg.linkCheckSent] ++ linkPollLoop 30
      ++ [MainEvent.getLinkCheckResult, MainEvent.print MainMsg.noLinkCheckResponse] := by
  unfold linkCheck
  rw [if_pos hreq, if_neg hres]
  simp

theorem linkCheck_has_request (a : IterAnswers) : MainEvent.requestLinkCheck ∈ linkCheck a := by
  unfold linkCheck
  simp

/-- C13: when the link check fires in an iteration of the advanced example, the
request is accepted and no result is available, the calls of the branch are:
the request, then 30 times `lorawan_process()` and `sleep_ms(100)`, then the
query of the result and the report of no response; the branch has issued one
request only, and sets
`last_link_check_time` to `now`, the same state as with a response;
`last_message_time` and `message_counter` are what the uplink branch alone
makes them.  In a later iteration a request is issued iff the unsigned 32-bit
difference of its `now` to the stored time exceeds 300000, and the stored time
stays until then. -/
theorem C13_link_check_no_response (fuel : Nat) (a : IterAnswers) (s : MainState)
    (r : IterResult) (h : mainIter fuel a s = some r)
    (hdue : 300000 < u32sub (a.now % 2 ^ 32) s.last_link_check_time)
    (hreq : a.link_request = 0) (hres : a.link_result ≠ 0) :
    r.linkEvents
        = [MainEvent.print MainMsg.requestingLinkCheck, MainEvent.requestLinkCheck,
            MainEvent.print MainMsg.linkCheckSent]
          ++ (List.replicate 30 [MainEvent.process, MainEvent.sleep 100]).flatten
          ++ [MainEvent.getLinkCheckResult, MainEvent.print MainMsg.noLinkCheckResponse]
      ∧ r.linkEvents.count MainEvent.process = 30
      ∧ r.linkEvents.count (MainEvent.sleep 100) = 30
      ∧ r.linkEvents.length = 65
      ∧ linkRequestCount r.linkEvents = 1
      ∧ r.state.last_link_check_time = a.now % 2 ^ 32
      ∧ (∀ margin gateways,
          (mainIter fuel (a.withLinkResponse margin gateways) s).map (fun x => x.state)
            = some r.state)
      ∧ r.state.last_message_time
          = (if 120000 < u32sub (a.now % 2 ^ 32) s.last_message_time then a.now % 2 ^ 32
             else s.last_message_time)
      ∧ r.state.message_counter
          = (if 120000 < u32sub (a.now % 2 ^ 32) s.last_message_time
             then u32inc s.message_counter else s.message_counter)
      ∧ ∀ fuel2 a2 s2 r2, s2.last_link_check_time = r.state.last_link_check_time →
          mainIter fuel2 a2 s2 = some r2 →
          (MainEvent.requestLinkCheck ∈ r2.linkEvents
              ↔ 300000 < u32sub (a2.now % 2 ^ 32) (a.now % 2 ^ 32))
            ∧ (¬ 300000 < u32sub (a2.now % 2 ^ 32) (a.now % 2 ^ 32) →
                r2.state.last_link_check_time = a.now % 2 ^ 32)
            ∧ ∀ e, e < 2 ^ 32 → a2.now % 2 ^ 32 = (a.now % 2 ^ 32 + e) % 2 ^ 32 →
                (MainEvent.requestLinkCheck ∈ r2.linkEvents ↔ 300000 < e) := by
  have hl := (mainIter_link fuel a s r h).1 hdue
  have hev := linkCheck_no_response a hreq hres
  have htime : r.state.last_link_check_time = a.now % 2 ^ 32 := hl.2
  have hlist : r.linkEvents
      = [MainEvent.print MainMsg.requestingLinkCheck, MainEvent.requestLinkCheck,
          MainEvent.print MainMsg.linkCheckSent]
        ++ (List.replicate 30 [MainEvent.process, MainEvent.sleep 100]).flatten
        ++ [MainEvent.getLinkCheckResult, MainEvent.print MainMsg.noLinkCheckResponse] := by
    rw [hl.1, hev, linkPollLoop_eq]
  refine ⟨hlist, ?_, ?_, ?_, ?_, htime, fun margin gateways => ?_, ?_, ?_, ?_⟩
  · rw [hlist]
    decide
  · rw [hlist]
    decide
  · rw [hlist]
    decide
  · rw [hl.1, hev, linkRequestCount_append, linkRequestCount_append, linkPollLoop_no_request]
    rfl
  · rw [mainIter_withLinkResponse, h]
    rfl
  · exact (mainIter_uplink_state fuel a s r h).1
  · exact (mainIter_uplink_state fuel a s r h).2
  · intro fuel2 a2 s2 r2 hs2 h2
    have hl2 := mainIter_link fuel2 a2 s2 r2 h2
    rw [hs2, htime] at hl2
    have hiff : MainEvent.requestLinkCheck ∈ r2.linkEvents
        ↔ 300000 < u32sub (a2.now % 2 ^ 32) (a.now % 2 ^ 32) := by
      constructor
      · intro hmem
        by_contra hnot
        rw [(hl2.2 hnot).1] at hmem
        exact List.not_mem_nil _ hmem
      · intro hd2
        rw [(hl2.1 hd2).1]
        exact linkCheck_has_request a2
    refine ⟨hiff, fun hnot => (hl2.2 hnot).2, fun e he hnow => ?_⟩
    rw [hiff]
    have hlt : a.now % 2 ^ 32 < U32 := Nat.mod_lt _ (by norm_num)
    have hnow2 : a2.now % U32 = (a.now % 2 ^ 32 + e) % U32 := hnow
    have hsub : u32sub (a2.now % 2 ^ 32) (a.now % 2 ^ 32)
        = u32sub (a2.now % U32) (a.now % 2 ^ 32) := rfl
    rw [hsub, hnow2, u32sub_elapsed _ _ hlt he]

/-- C13 at an iteration at 400000 ms whose link check gets no response. -/
theorem C13_link_check_no_response_witness :
    ∃ r, mainIter 1 (iterBusy 400000) mainInit = some r
      ∧ r.linkEvents.count MainEvent.process = 30
      ∧ r.linkEvents.count (MainEvent.sleep 100) = 30
      ∧ linkRequestCount r.linkEvents = 1
      ∧ r.state.last_link_check_time = 400000 % 2 ^ 32 := by
  obtain ⟨r, hr⟩ := mainIter_terminates 1 (iterBusy 400000) mainInit
    (Or.inl (fun _ _ => show (-1 : Int) < 0 by decide))
  have h := C13_link_check_no_response 1 (iterBusy 400000) mainInit r hr
    (by decide) (by decide) (by decide)
  exact ⟨r, hr, h.2.1, h.2.2.1, h.2.2.2.2.1, h.2.2.2.2.2.1⟩

/-! ## Termination of the ack-wait loop -/

theorem pollCount_append (l1 l2 : List MainEvent) :
    pollCount (l1 ++ l2) = pollCount l1 + pollCount l2 := by
  unfold pollCount
  exact List.countP_append _ _ _

/-- The result of the ack-wait loop and the number of its status polls: the
loop leaves at its evaluation `k` of the condition, after `k` polls that
returned false, by a poll that returns true or by the timeout. -/
theorem ackWait_polls (ack_start : Nat) (clock : Nat → Nat) (status : Nat → Bool)
    (fuel i : Nat) (w : Bool × List MainEvent)
    (h : ackWait ack_start clock status fuel i = some w) :
    ∃ k, k < fuel
      ∧ (∀ j, j < k → status (i + j) = false ∧ u32sub (clock (i + j)) ack_start < 30000)
      ∧ (w.1 = true → status (i + k) = true ∧ u32sub (clock (i + k)) ack_start < 30000
          ∧ pollCount w.2 = k + 1)
      ∧ (w.1 = false → 30000 ≤ u32sub (clock (i + k)) ack_start ∧ pollCount w.2 = k) := by
  induction fuel generalizing i w with
  | zero => simp [ackWait] at h
  | succ f ih =>
    unfold ackWait at h
    by_cases hc : u32sub (clock i) ack_start < 30000
    · rw [if_pos hc] at h
      by_cases hs : status i = true
      · rw [if_pos hs] at h
        cases h
        exact ⟨0, Nat.succ_pos f, fun j hj => absurd hj (Nat.not_lt_zero j),
          fun _ => ⟨hs, hc, rfl⟩, fun hf => by simp at hf⟩
      · rw [if_neg hs] at h
        cases hr : ackWait ack_start clock status f (i + 1) with
        | none => simp [hr] at h
        | some r =>
          simp only [hr, Option.some.injEq] at h
          obtain ⟨k, hk, hbefore, ht, hf⟩ := ih (i + 1) r hr
          have hcount : pollCount w.2 = pollCount r.2 + 1 := by
            rw [← h]
            show pollCount (_ ++ r.2) = _
            rw [pollCount_append]
            simp [pollCount]
            omega
          refine ⟨k + 1, by omega, ?_, ?_, ?_⟩
          · intro j hj
            cases j with
            | zero => exact ⟨by simpa using hs, hc⟩
            | succ j' =>
              have := hbefore j' (by omega)
              rwa [show i + 1 + j' = i + (j' + 1) by omega] at this
          · intro hw
            rw [← h] at hw
            have := ht hw
            rw [show i + 1 + k = i + (k + 1) by omega] at this
            exact ⟨this.1, this.2.1, by rw [hcount, this.2.2]⟩
          · intro hw
            rw [← h] at hw
            have := hf hw
            rw [show i + 1 + k = i + (k + 1) by omega] at this
            exact ⟨this.1, by rw [hcount, this.2]⟩
    · rw [if_neg hc] at h
      cases h
      exact ⟨0, Nat.succ_pos f, fun j hj => absurd hj (Nat.not_lt_zero j),
        fun ht => by simp at ht, fun _ => ⟨by simpa using hc, rfl⟩⟩

theorem u32sub_of_le (a b : Nat) (hab : b ≤ a) (ha : a < U32) : u32sub a b = a - b := by
  unfold u32sub U32 at *
  omega

/-- While the loop keeps running, the clock is at least 100 ms per past
iteration beyond `ack_start` and has not wrapped. -/
theorem clock_lower (ack_start : Nat) (clock : Nat → Nat) (status : Nat → Bool)
    (hstart : ack_start ≤ clock 0) (h0 : clock 0 < U32)
    (hstep : ∀ i, (∀ j, j ≤ i → status j = false ∧ u32sub (clock j) ack_start < 30000) →
      clock i + 100 ≤ clock (i + 1) ∧ clock (i + 1) < U32)
    (i : Nat) (hrun : ∀ j, j < i → status j = false ∧ u32sub (clock j) ack_start < 30000) :
    ack_start + 100 * i ≤ clock i ∧ clock i < U32 := by
  induction i with
  | zero => exact ⟨by omega, h0⟩
  | succ n ih =>
    have hprev := ih (fun j hj => hrun j (by omega))
    have hs := hstep n (fun j hj => hrun j (by omega))
    exact ⟨by omega, hs.2⟩

/-- C15: if the clock does not go back between the reading of `ack_start` and
the first evaluation of the loop condition, advances by at least 100 ms across
each `sleep_ms(100)` of the loop and does not wrap, the ack-wait loop of the
advanced example ends, after at most 300 polls of
`lorawan_get_last_confirmed_status`, whatever the polls return; it ends with
`ack_received` true iff one of its polls returned true. -/
theorem C15_ack_wait_bounded (ack_start : Nat) (clock : Nat → Nat) (status : Nat → Bool)
    (fuel : Nat) (hfuel : 300 < fuel)
    (hstart : ack_start ≤ clock 0) (h0 : clock 0 < 2 ^ 32)
    (hstep : ∀ i, (∀ j, j ≤ i → status j = false ∧ u32sub (clock j) ack_start < 30000) →
      clock i + 100 ≤ clock (i + 1) ∧ clock (i + 1) < 2 ^ 32) :
    ∃ w, ackWait ack_start clock status fuel 0 = some w
      ∧ pollCount w.2 ≤ 300
      ∧ (w.1 = true ↔ ∃ j, j < pollCount w.2 ∧ status j = true) := by
  -- while the loop runs, the elapsed time is at least 100 ms per iteration
  have hlow : ∀ i, (∀ j, j < i → status j = false ∧ u32sub (clock j) ack_start < 30000) →
      100 * i ≤ u32sub (clock i) ack_start := by
    intro i hrun
    obtain ⟨h1, h2⟩ := clock_lower ack_start clock status hstart h0 hstep i hrun
    rw [u32sub_of_le _ _ (by omega) h2]
    omega
  -- so the loop cannot still run at its evaluation 300
  have hbound : ∀ i, (∀ j, j ≤ i → status j = false ∧ u32sub (clock j) ack_start < 30000) →
      i < 300 := by
    intro i hrun
    have h1 := hlow i (fun j hj => hrun j (by omega))
    have h2 := (hrun i (Nat.le_refl i)).2
    omega
  have hexit : ∃ k, k ≤ 300
      ∧ (status k = true ∨ 30000 ≤ u32sub (clock k) ack_start) := by
    by_contra hno
    push_neg at hno
    have := hbound 300 (fun j hj => ⟨by simpa using (hno j hj).1, (hno j hj).2⟩)
    omega
  obtain ⟨k, hk, hex⟩ := hexit
  obtain ⟨w, hw⟩ := ackWait_terminates ack_start clock status fuel 0 k (by omega)
    (by simpa using hex)
  obtain ⟨e, -, hbefore, ht, hf⟩ := ackWait_polls ack_start clock status fuel 0 w hw
  simp only [Nat.zero_add] at hbefore ht hf
  refine ⟨w, hw, ?_⟩
  cases hres : w.1 with
  | true =>
    obtain ⟨hs, hc, hcount⟩ := ht hres
    have h1 := hlow e hbefore
    rw [hcount]
    exact ⟨by omega, fun _ => ⟨e, by omega, hs⟩, fun _ => rfl⟩
  | false =>
    obtain ⟨hc, hcount⟩ := hf hres
    rw [hcount]
    constructor
    · by_contra hgt
      have := hbound 300 (fun j hj => hbefore j (by omega))
      omega
    · constructor
      · intro hcon
        exact absurd hcon Bool.false_ne_true
      · rintro ⟨j, hj, hsj⟩
        rw [(hbefore j hj).1] at hsj
        exact absurd hsj Bool.false_ne_true

/-- C15 at a clock advancing 100 ms per poll, the fourth poll returning true. -/
theorem C15_ack_wait_bounded_witness :
    ∃ w, ackWait (iterAcked 130000).ack_start (iterAcked 130000).clock
          (iterAcked 130000).status 301 0 = some w
      ∧ pollCount w.2 ≤ 300
      ∧ (w.1 = true ↔ ∃ j, j < pollCount w.2 ∧ (iterAcked 130000).status j = true) :=
  C15_ack_wait_bounded (iterAcked 130000).ack_start (iterAcked 130000).clock
    (iterAcked 130000).status 301 (by decide) (by decide) (by decide)
    (fun i hrun => by
      have hi : i < 3 := by
        by_contra hge
        have := (hrun 3 (by omega)).1
        simp [iterAcked] at this
      show 130000 + 200 + 100 * i + 100 ≤ 130000 + 200 + 100 * (i + 1)
        ∧ 130000 + 200 + 100 * (i + 1) < 2 ^ 32
      constructor <;> omega)

end LoRaWAN
